import Mathlib

/-!
Verification of the symptom-checker core of this repository, embedding
`ai/symptom-checker/backend/ml_symptom_analysis.py` (class `MLSymptomAnalyzer`)
and `ai/symptom-checker/backend/symptom_analysis.py` (class `SymptomAnalyzer`).

Modelling conventions, used throughout:
- Python strings are modelled as `List Char`; `str.lower` is modelled with
  `Char.toLower` (faithful for ASCII, and every configured keyword in the
  source is ASCII).
- Python floats are modelled as exact rationals (`ℚ`).  The `round(x, 2)`
  calls that `find_matching_diseases` applies to the stored scores are
  display formatting and are omitted here; rounding is monotone, so the
  bound and ordering facts proved below are unaffected by it.
- Recursive algorithms are written with an explicit fuel argument so that
  every definition evaluates by kernel reduction; the initial fuel is always
  sufficient (proved where a theorem needs it).
-/

namespace SymCheck

/-- The whitespace characters of Python `str.strip()` and of `\s` in `re`
(ASCII range). -/
def isPySpace (c : Char) : Bool :=
  c = ' ' || c = '\t' || c = '\n' || c = '\r' || c = '\x0b' || c = '\x0c'

/-- Python `str.lower()` on the ASCII fragment. -/
def lowerStr (s : List Char) : List Char := s.map Char.toLower

/-- View a Lean string literal as the `List Char` modelling a Python string. -/
def lc (s : String) : List Char := s.data

/-- `leadsList p s` holds when `p` occurs at the very start of `s`. -/
def leadsList : List Char → List Char → Bool
  | [], _ => true
  | _ :: _, [] => false
  | a :: as, b :: bs => a = b && leadsList as bs

/-- Python substring test `a in b`. -/
def containsSub (a b : List Char) : Bool :=
  b.tails.any fun t => leadsList a t

/-- Python `str.strip()`: drop leading and trailing whitespace. -/
def pyStrip (s : List Char) : List Char :=
  ((s.dropWhile isPySpace).reverse.dropWhile isPySpace).reverse

/-- Python `' '.join(parts)`. -/
def joinSpace : List (List Char) → List Char
  | [] => []
  | [p] => p
  | p :: ps => p ++ ' ' :: joinSpace ps

/-- First-occurrence deduplication with an explicit seen accumulator.  Models
Python `list(dict.fromkeys(xs))` and the manual seen-set loops of the source.
`list(set(xs))` is also modelled by this function: Python set iteration order
is unspecified, and no claim proved below depends on the order. -/
def pyDedupGo (seen : List (List Char)) : List (List Char) → List (List Char)
  | [] => []
  | x :: xs => if x ∈ seen then pyDedupGo seen xs else x :: pyDedupGo (x :: seen) xs

/-- First-occurrence deduplication of a list of strings. -/
def pyDedup (l : List (List Char)) : List (List Char) := pyDedupGo [] l

/-! ### difflib.SequenceMatcher

Both analyzers fall back on `difflib.SequenceMatcher(None, a, b).ratio()`.
`ratio` is `2*M / (len(a)+len(b))` where `M` is the total size of the
matching blocks found by recursively taking the longest matching block.
With `isjunk=None` — the only way this repository constructs a
`SequenceMatcher` — the `bjunk` set is empty, but the AUTOJUNK heuristic is
active: when `len(b) >= 200`, every element occurring in `b` more than
`len(b)//100 + 1` times is purged from the `b2j` index.  Purged (popular)
elements cannot start or chain a block in the main loop of
`find_longest_match`, which therefore returns, among the maximal
popular-free matching blocks, the one starting earliest in `a`, then
earliest in `b`; the two "extend by non-junk elements" loops then extend
that block over equal characters on both ends — popular characters
included, since they are not in `bjunk`.  The two `bjunk` extension loops
are the identity because `bjunk` is empty.  Popularity is computed once
from the full second sequence and fixed through the recursion of
`get_matching_blocks`, exactly as `__chain_b` does. -/

/-- The autojunk test of CPython `SequenceMatcher.__chain_b` with
`isjunk=None`: `c` is purged from `b2j` when the full second sequence `b0`
has at least 200 elements and `c` occurs in it more than
`len(b0)//100 + 1` times. -/
def isPopular (b0 : List Char) (c : Char) : Bool :=
  200 ≤ b0.length && b0.length / 100 + 1 < b0.count c

/-- Length of the longest common leading run of two lists (plain
equality, used by the extension loops). -/
def commonLead : List Char → List Char → ℕ
  | a :: as, b :: bs => if a = b then commonLead as bs + 1 else 0
  | _, _ => 0

/-- Length of the common leading run restricted to non-popular characters:
the main loop of `find_longest_match` chains a block only through
positions that survived in `b2j`. -/
def npLead (pop : Char → Bool) : List Char → List Char → ℕ
  | a :: as, b :: bs =>
    if a = b ∧ pop b = false then npLead pop as bs + 1 else 0
  | _, _ => 0

/-- All start pairs `(i, j)` with `i < la`, `j < lb`, enumerated with `i`
ascending and, within one `i`, `j` ascending — the traversal order of
CPython `find_longest_match`. -/
def startPairs (la lb : ℕ) : List (ℕ × ℕ) :=
  (List.range la).flatMap fun i => (List.range lb).map fun j => (i, j)

/-- Size of the longest popular-free matching block of `a` and `b`. -/
def dpSize (pop : Char → Bool) (a b : List Char) : ℕ :=
  (startPairs a.length b.length).foldl
    (fun m p => max m (npLead pop (a.drop p.1) (b.drop p.2))) 0

/-- Start of the block the main loop of `find_longest_match` records: the
maximal popular-free block starting earliest in `a`, then earliest in `b`;
`(0, 0)` — CPython `(alo, blo)` — when no pair matches at all. -/
def dpBest (pop : Char → Bool) (a b : List Char) : ℕ × ℕ :=
  match (startPairs a.length b.length).find?
      (fun p => npLead pop (a.drop p.1) (b.drop p.2) == dpSize pop a b) with
  | some p => p
  | none => (0, 0)

/-- The left extension loop: how many equal characters sit immediately
before the block at `(i, j)` (no junk restriction — `bjunk` is empty). -/
def extLeft (a b : List Char) (i j : ℕ) : ℕ :=
  commonLead (a.take i).reverse (b.take j).reverse

/-- The right extension loop: how many equal characters follow the block
of size `k` at `(i, j)`. -/
def extRight (a b : List Char) (i j k : ℕ) : ℕ :=
  commonLead (a.drop (i + k)) (b.drop (j + k))

/-- `find_longest_match` over one slice pair: the main-loop block extended
by the two non-junk extension loops, as `(i, j, size)`. -/
def flmExt (pop : Char → Bool) (a b : List Char) : ℕ × ℕ × ℕ :=
  ((dpBest pop a b).1 - extLeft a b (dpBest pop a b).1 (dpBest pop a b).2,
   (dpBest pop a b).2 - extLeft a b (dpBest pop a b).1 (dpBest pop a b).2,
   dpSize pop a b + extLeft a b (dpBest pop a b).1 (dpBest pop a b).2
     + extRight a b (dpBest pop a b).1 (dpBest pop a b).2 (dpSize pop a b))

/-- Fuel-indexed total size of the matching blocks of
`SequenceMatcher.get_matching_blocks`: take the longest matching block and
recurse on the parts left of it and right of it.  `pop` is the popularity
test of the original full second sequence. -/
def matchTotalGo (pop : Char → Bool) : ℕ → List Char → List Char → ℕ
  | 0, _, _ => 0
  | fuel + 1, a, b =>
    let t := flmExt pop a b
    if t.2.2 = 0 then 0
    else
      matchTotalGo pop fuel (a.take t.1) (b.take t.2.1) + t.2.2
        + matchTotalGo pop fuel (a.drop (t.1 + t.2.2)) (b.drop (t.2.1 + t.2.2))

/-- Total number of matched characters between `a` and `b`;
`a.length + b.length` is always enough fuel. -/
def matchTotal (a b : List Char) : ℕ :=
  matchTotalGo (isPopular b) (a.length + b.length) a b

/-- `SequenceMatcher.ratio()`: `2*M / (len(a)+len(b))`, and `1.0` for two
empty sequences (CPython `_calculate_ratio`). -/
def pyRatio (a b : List Char) : ℚ :=
  if a.length + b.length = 0 then 1
  else 2 * (matchTotal a b : ℚ) / ((a.length : ℚ) + (b.length : ℚ))

/-- `MLSymptomAnalyzer.calculate_similarity` (ml_symptom_analysis.py:85-92):
substring containment in either direction gives `1.0`, otherwise the
SequenceMatcher ratio of the two strings as given. -/
def calculate_similarity (s1 s2 : List Char) : ℚ :=
  if containsSub s1 s2 || containsSub s2 s1 then 1 else pyRatio s1 s2

/-- `SymptomAnalyzer.similarity_score` (symptom_analysis.py:58-60): the
SequenceMatcher ratio of the lower-cased strings; note there is no
substring shortcut in this function. -/
def similarity_score (a b : List Char) : ℚ :=
  pyRatio (lowerStr a) (lowerStr b)

/-! ### Regular-expression fragments used by the two text normalizers

The source uses three `re` patterns: the separator split
`[,;]|(?:\s+and\s+)|(?:\s+&\s+)` (plus the alternative `(?:\s+\+\s+)` in the
ML analyzer), the anchored leading-filler removal, and the trailing
duration-clause removal `\s+(?:for…|since…|lasting…).*$`.  They are modelled
directly: every `\s+` is a maximal nonempty whitespace run (safe here
because each `\s+` is followed by a non-whitespace literal or ends the
pattern, so regex backtracking can never shorten it), and alternatives are
tried in pattern order, as Python does. -/

/-- One token of a modelled pattern: a literal or a `\s+` run. -/
inductive PatTok
  | lit (w : List Char)
  | ws
deriving DecidableEq

/-- Match a token sequence at the start of `s`; return what follows. -/
def matchToks : List PatTok → List Char → Option (List Char)
  | [], s => some s
  | PatTok.lit w :: ts, s =>
      if leadsList w s then matchToks ts (s.drop w.length) else none
  | PatTok.ws :: ts, s =>
      if (s.takeWhile isPySpace).isEmpty then none
      else matchToks ts (s.dropWhile isPySpace)

/-- Try to match one separator of the split pattern at the start of `s`
(`mlPlus` switches on the extra `\s+\+\s+` alternative of the ML analyzer);
on success return the remainder after the separator. -/
def sepRest (mlPlus : Bool) (s : List Char) : Option (List Char) :=
  match s with
  | [] => none
  | c :: rest =>
    if c = ',' || c = ';' then some rest
    else
      (matchToks [.ws, .lit (lc "and"), .ws] s).orElse fun _ =>
      (matchToks [.ws, .lit (lc "&"), .ws] s).orElse fun _ =>
      if mlPlus then matchToks [.ws, .lit (lc "+"), .ws] s else none

/-- Fuel-indexed scan of `re.split`: cut at every separator occurrence,
scanning left to right.  `re.split` keeps empty fragments, and so does
this function. -/
def splitGo (mlPlus : Bool) : ℕ → List Char → List Char → List (List Char)
  | 0, s, cur => [cur.reverse ++ s]
  | fuel + 1, s, cur =>
    match sepRest mlPlus s with
    | some after => cur.reverse :: splitGo mlPlus fuel after []
    | none =>
      match s with
      | [] => [cur.reverse]
      | c :: rest => splitGo mlPlus fuel rest (c :: cur)

/-- Python `re.split(separator_pattern, s)`; `s.length` steps always
suffice since every step consumes at least one character. -/
def pySplit (mlPlus : Bool) (s : List Char) : List (List Char) :=
  splitGo mlPlus s.length s []

/-- The leading-filler alternatives of `SymptomAnalyzer` (symptom_analysis.py:51):
`^(?:have|having|experiencing|feel|feeling|got|get|i|my|the)\s+`. -/
def saLeadPats : List (List PatTok) :=
  [lc "have", lc "having", lc "experiencing", lc "feel", lc "feeling",
   lc "got", lc "get", lc "i", lc "my", lc "the"].map
    (fun w => [PatTok.lit w, PatTok.ws])

/-- The leading-filler alternatives of `MLSymptomAnalyzer`
(ml_symptom_analysis.py:57):
`^(?:i\s+have\s+|i\s+am\s+|experiencing\s+|feeling\s+|my\s+|the\s+)`. -/
def mlLeadPats : List (List PatTok) :=
  [[PatTok.lit (lc "i"), PatTok.ws, PatTok.lit (lc "have"), PatTok.ws],
   [PatTok.lit (lc "i"), PatTok.ws, PatTok.lit (lc "am"), PatTok.ws],
   [PatTok.lit (lc "experiencing"), PatTok.ws],
   [PatTok.lit (lc "feeling"), PatTok.ws],
   [PatTok.lit (lc "my"), PatTok.ws],
   [PatTok.lit (lc "the"), PatTok.ws]]

/-- Apply the anchored leading-filler `re.sub(..., '', s)`: the pattern is
anchored by `^`, so at most one removal happens, using the first
alternative that matches. -/
def dropLeadFiller (pats : List (List PatTok)) (s : List Char) : List Char :=
  match pats.findSome? (fun p => matchToks p s) with
  | some rest => rest
  | none => s

/-- What `.*$` (no DOTALL, no MULTILINE) leaves of `u` when it can match:
`.` excludes newlines and `$` holds at the end of the string or just before
a final newline, so the match consumes everything when `u` has no newline,
consumes all but a sole final newline, and otherwise fails. -/
def tailDotStar (u : List Char) : Option (List Char) :=
  if u.contains '\n' = false then some []
  else if u.getLast? = some '\n' && (u.dropLast.contains '\n') = false then some ['\n']
  else none

/-- The keyword alternatives of the trailing-clause pattern.  The ML
analyzer requires whitespace after the keyword (`for\s+` …); the dataset
analyzer does not (`for` …). -/
def tailKeys (mlWs : Bool) : List (List PatTok) :=
  if mlWs then
    [[PatTok.lit (lc "for"), PatTok.ws], [PatTok.lit (lc "since"), PatTok.ws],
     [PatTok.lit (lc "lasting"), PatTok.ws]]
  else
    [[PatTok.lit (lc "for")], [PatTok.lit (lc "since")], [PatTok.lit (lc "lasting")]]

/-- Try to match `\s+(?:for…|since…|lasting…).*$` at the start of `s`; on
success return what the match leaves behind. -/
def cutHere (mlWs : Bool) (s : List Char) : Option (List Char) :=
  match matchToks [PatTok.ws] s with
  | none => none
  | some afterWs =>
    match (tailKeys mlWs).findSome? (fun p => matchToks p afterWs) with
    | none => none
    | some u => tailDotStar u

/-- Fuel-indexed leftmost-match scan for the trailing-clause removal. -/
def cutScan (mlWs : Bool) : ℕ → List Char → List Char → List Char
  | 0, s, acc => acc.reverse ++ s
  | fuel + 1, s, acc =>
    match cutHere mlWs s with
    | some leftover => acc.reverse ++ leftover
    | none =>
      match s with
      | [] => acc.reverse
      | c :: rest => cutScan mlWs fuel rest (c :: acc)

/-- `re.sub(r'\s+(?:for…|since…|lasting…).*$', '', s)`: remove from the
leftmost position where the pattern matches. -/
def dropTrailClause (mlWs : Bool) (s : List Char) : List Char :=
  cutScan mlWs s.length s []

/-! ### The two text normalizers -/

/-- `SymptomAnalyzer.extract_symptoms_from_text` (symptom_analysis.py:37-56).
Note the source tests `if part and len(part) > 2` (equivalent to
`2 < len(part)`) BEFORE stripping the filler, and only re-checks
non-emptiness afterwards. -/
def extract_symptoms_from_text (text : List Char) : List (List Char) :=
  let t := pyStrip (lowerStr text)
  let parts := pySplit false t
  let symptoms := parts.filterMap (fun part =>
    let p := pyStrip part
    if 2 < p.length then
      let p2 := dropTrailClause false (dropLeadFiller saLeadPats p)
      if p2 ≠ [] then some (pyStrip p2) else none
    else none)
  pyDedup symptoms

/-- `MLSymptomAnalyzer.preprocess_symptoms` (ml_symptom_analysis.py:46-63).
Unlike the dataset analyzer, the `len(symptom.strip()) > 2` test runs AFTER
the filler removal. -/
def preprocess_symptoms (symptom_text : List Char) : List (List Char) :=
  let t := pyStrip (lowerStr symptom_text)
  let parts := pySplit true t
  let cleaned := parts.filterMap (fun symptom =>
    let s1 := dropLeadFiller mlLeadPats (pyStrip symptom)
    let s2 := dropTrailClause true s1
    if s2 ≠ [] ∧ 2 < (pyStrip s2).length then some (pyStrip s2) else none)
  pyDedup cleaned

/-! ### The disease matcher of SymptomAnalyzer -/

/-- One entry of the list `find_matching_diseases` returns
(symptom_analysis.py:103-111).  The source also stores `round(x, 2)` of the
three percentage fields for display; the exact rational values are kept
here (see the header note). -/
structure DiseaseMatch where
  disease : List Char
  all_symptoms : List (List Char)
  matched_symptoms : List (List Char)
  match_score : ℚ
  match_percentage : ℚ
  symptom_coverage : ℚ
  combined_score : ℚ
deriving DecidableEq

/-- Score of one user symptom against one lower-cased disease symptom
(symptom_analysis.py:79-85): substring containment in either direction
scores `1.0`, otherwise `similarity_score`. -/
def pairScore (userSym diseaseSym : List Char) : ℚ :=
  if containsSub userSym diseaseSym || containsSub diseaseSym userSym then 1
  else similarity_score userSym diseaseSym

/-- The inner loop of symptom_analysis.py:79-89 with its running best as
an accumulator: remember score and disease symptom, updating only when the
new score strictly exceeds both the current best and the `0.6` threshold
(so the first of equally scored symptoms wins).  `0.6` is the rational
`3/5`; the source compares IEEE floats, whose nearest double to 0.6 differs
from `3/5` by under `2⁻⁵³` — no configured similarity sits in that gap. -/
def bestFold (userSym : List Char) (acc : ℚ × Option (List Char)) :
    List (List Char) → ℚ × Option (List Char)
  | [] => acc
  | ds :: rest =>
    bestFold userSym
      (if acc.1 < pairScore userSym ds ∧ 3 / 5 < pairScore userSym ds then
        (pairScore userSym ds, some ds)
      else acc) rest

/-- The best-match search of symptom_analysis.py:76-89, starting from
`best_match_score = 0`, `best_match = None`. -/
def bestMatchFor (userSym : List Char) (dss : List (List Char)) :
    ℚ × Option (List Char) :=
  bestFold userSym ((0 : ℚ), none) dss

/-- The outer loop of symptom_analysis.py:74-93 with the running
`(match_score, matched_symptoms)` as an accumulator.  A user symptom
contributes only when a best match was found and the matched string is
non-empty — the source tests `if best_match:`, which is Python truthiness,
so an empty disease-symptom string is never counted. -/
def scanFold (dss : List (List Char)) (acc : ℚ × List (List Char)) :
    List (List Char) → ℚ × List (List Char)
  | [] => acc
  | us :: rest =>
    scanFold dss
      (match bestMatchFor us dss with
       | (s, some m) => if m = [] then acc else (acc.1 + s, acc.2 ++ [m])
       | (_, none) => acc) rest

/-- The per-disease accumulation over all user symptoms
(symptom_analysis.py:71-93), starting from score 0 and no matches. -/
def diseaseScan (user : List (List Char)) (dss : List (List Char)) :
    ℚ × List (List Char) :=
  scanFold dss ((0 : ℚ), []) user

/-- One row of `find_matching_diseases` (symptom_analysis.py:66-111):
`none` when `match_score = 0` (the disease is excluded). -/
def diseaseRow (user : List (List Char)) (disease : List Char)
    (disease_symptoms : List (List Char)) : Option DiseaseMatch :=
  let dssLower := disease_symptoms.map (fun s => pyStrip (lowerStr s))
  let r := diseaseScan user dssLower
  if 0 < r.1 then
    let mp := r.1 / (user.length : ℚ) * 100
    let sc := (r.2.length : ℚ) / (disease_symptoms.length : ℚ) * 100
    some { disease := disease, all_symptoms := disease_symptoms,
           matched_symptoms := r.2, match_score := r.1,
           match_percentage := mp, symptom_coverage := sc,
           combined_score := (mp + sc) / 2 }
  else none

/-- The unsorted match list, in dataset iteration order (Python dicts
iterate in insertion order; entries whose symptom value is not a list are
skipped by the source and a well-typed dataset is assumed here). -/
def matchRows (dataset : List (List Char × List (List Char)))
    (user : List (List Char)) : List DiseaseMatch :=
  dataset.filterMap (fun d => diseaseRow user d.1 d.2)

/-- Insert into a descending-sorted list after every entry whose
`combined_score` is greater than or equal — the placement of a stable sort.
Python `list.sort(key=..., reverse=True)` is stable. -/
def insertDesc (x : DiseaseMatch) : List DiseaseMatch → List DiseaseMatch
  | [] => [x]
  | y :: ys =>
    if y.combined_score < x.combined_score then x :: y :: ys
    else y :: insertDesc x ys

/-- Stable sort by `combined_score` descending. -/
def sortDesc (l : List DiseaseMatch) : List DiseaseMatch :=
  l.foldl (fun acc x => insertDesc x acc) []

/-- `SymptomAnalyzer.find_matching_diseases` (symptom_analysis.py:62-115). -/
def find_matching_diseases (dataset : List (List Char × List (List Char)))
    (user : List (List Char)) : List DiseaseMatch :=
  sortDesc (matchRows dataset user)

/-! ### Keyword configuration (symptom_analysis.py:13-35,
ml_symptom_analysis.py:20-44) -/

/-- `SymptomAnalyzer.emergency_keywords` (symptom_analysis.py:13-18). -/
def emergency_keywords : List (List Char) :=
  [lc "chest pain", lc "difficulty breathing", lc "shortness of breath",
   lc "severe pain", lc "heart attack", lc "stroke", lc "bleeding",
   lc "unconscious", lc "seizure", lc "severe headache", lc "vision loss",
   lc "paralysis", lc "severe allergic reaction", lc "difficulty swallowing",
   lc "severe abdominal pain", lc "high fever"]

/-- `SymptomAnalyzer.high_urgency_keywords` (symptom_analysis.py:21-25). -/
def high_urgency_keywords : List (List Char) :=
  [lc "persistent fever", lc "severe fatigue", lc "blood in stool",
   lc "blood in urine", lc "severe nausea", lc "severe vomiting",
   lc "dehydration", lc "fainting", lc "rapid weight loss",
   lc "persistent cough", lc "severe diarrhea"]

/-- `SymptomAnalyzer.condition_patterns` (symptom_analysis.py:28-35). -/
def condition_patterns : List (List Char × List (List Char)) :=
  [(lc "Common Cold",
    [lc "runny nose", lc "sneezing", lc "mild cough", lc "sore throat"]),
   (lc "Influenza",
    [lc "fever", lc "body aches", lc "fatigue", lc "headache", lc "cough"]),
   (lc "Migraine",
    [lc "severe headache", lc "nausea", lc "sensitivity to light",
     lc "visual disturbance"]),
   (lc "Gastroenteritis",
    [lc "nausea", lc "vomiting", lc "diarrhea", lc "stomach cramps",
     lc "abdominal pain"]),
   (lc "Anxiety",
    [lc "nervousness", lc "rapid heartbeat", lc "sweating", lc "trembling",
     lc "restlessness"]),
   (lc "Allergic Reaction",
    [lc "itching", lc "hives", lc "swelling", lc "rash",
     lc "difficulty breathing"])]

/-- `MLSymptomAnalyzer.emergency_symptoms` (ml_symptom_analysis.py:20-25). -/
def emergency_symptoms : List (List Char) :=
  [lc "chest pain", lc "difficulty breathing", lc "shortness of breath",
   lc "severe pain", lc "heart attack symptoms", lc "stroke symptoms",
   lc "severe bleeding", lc "unconsciousness", lc "seizure",
   lc "severe headache", lc "vision loss", lc "paralysis",
   lc "severe allergic reaction", lc "difficulty swallowing",
   lc "severe abdominal pain", lc "high fever over 103"]

/-- `MLSymptomAnalyzer.high_risk_symptoms` (ml_symptom_analysis.py:27-31). -/
def high_risk_symptoms : List (List Char) :=
  [lc "persistent fever", lc "severe fatigue", lc "blood in stool",
   lc "blood in urine", lc "severe nausea", lc "severe vomiting",
   lc "dehydration", lc "fainting", lc "rapid weight loss",
   lc "persistent cough with blood", lc "severe diarrhea"]

/-- `MLSymptomAnalyzer.age_risk_factors` (ml_symptom_analysis.py:34-38);
configured on the instance but never read by any method. -/
def age_risk_factors : List (List Char × List (List Char)) :=
  [(lc "elderly", [lc "heart disease", lc "stroke",
                   lc "diabetes complications", lc "pneumonia"]),
   (lc "child", [lc "meningitis", lc "severe dehydration",
                 lc "respiratory distress"]),
   (lc "adult", [lc "heart attack", lc "appendicitis", lc "kidney stones"])]

/-- `MLSymptomAnalyzer.gender_risk_factors` (ml_symptom_analysis.py:40-44);
configured on the instance but never read by any method. -/
def gender_risk_factors : List (List Char × List (List Char)) :=
  [(lc "female", [lc "pregnancy complications", lc "ovarian issues",
                  lc "breast cancer"]),
   (lc "male", [lc "prostate issues", lc "heart disease"]),
   (lc "other", [])]

/-! ### Urgency assessment -/

/-- Result shape of `SymptomAnalyzer.calculate_urgency_level`. -/
structure Urgency where
  level : List Char
  description : List Char
deriving DecidableEq

/-- The emergency-rule result of symptom_analysis.py:124-127. -/
def saEmergencyUrgency : Urgency :=
  ⟨lc "High",
   lc "Seek immediate medical attention. These symptoms may indicate a serious condition requiring urgent care."⟩

/-- The high-urgency-keyword result of symptom_analysis.py:132-135. -/
def saHighKeywordUrgency : Urgency :=
  ⟨lc "High",
   lc "Schedule a doctor visit as soon as possible. These symptoms warrant prompt medical evaluation."⟩

/-- The condition-based result of symptom_analysis.py:148-151. -/
def saConditionUrgency : Urgency :=
  ⟨lc "High",
   lc "These symptoms may indicate a serious condition. Please consult a healthcare provider promptly."⟩

/-- The severity-based result of symptom_analysis.py:155-158. -/
def saSeverityUrgency : Urgency :=
  ⟨lc "Medium",
   lc "Consider seeing a healthcare provider within the next few days for proper evaluation."⟩

/-- The worsening-based result of symptom_analysis.py:162-165. -/
def saWorseningUrgency : Urgency :=
  ⟨lc "Medium",
   lc "If symptoms continue to worsen or don\x27t improve, consult a healthcare provider."⟩

/-- The default result of symptom_analysis.py:167-170. -/
def saLowUrgency : Urgency :=
  ⟨lc "Low",
   lc "Monitor symptoms at home. Seek medical care if symptoms worsen or don\x27t improve in a few days."⟩

/-- The high-urgency condition names of symptom_analysis.py:142-145. -/
def high_urgency_conditions : List (List Char) :=
  [lc "heart attack", lc "stroke", lc "pneumonia", lc "appendicitis",
   lc "meningitis", lc "kidney stones", lc "gallbladder", lc "asthma",
   lc "diabetes", lc "hypertension"]

/-- `SymptomAnalyzer.calculate_urgency_level` (symptom_analysis.py:117-170):
a rule cascade over the raw input text and the matched diseases; the first
rule that fires returns, later rules are not evaluated.  The `symptoms`
parameter is accepted and never read, as in the source. -/
def calculate_urgency_level (symptoms : List (List Char))
    (user_input : List Char) (matched : List DiseaseMatch) : Urgency :=
  let ui := lowerStr user_input
  if emergency_keywords.any (fun k => containsSub k ui) then saEmergencyUrgency
  else if high_urgency_keywords.any (fun k => containsSub k ui) then
    saHighKeywordUrgency
  else if (match matched.head? with
           | some m => high_urgency_conditions.any
               (fun c => containsSub c (lowerStr m.disease))
           | none => false) then saConditionUrgency
  else if [lc "severe", lc "intense", lc "unbearable", lc "weeks",
           lc "persistent"].any (fun t => containsSub t ui) then
    saSeverityUrgency
  else if [lc "getting worse", lc "worsening", lc "not improving"].any
      (fun t => containsSub t ui) then saWorseningUrgency
  else saLowUrgency

/-- Result shape of `MLSymptomAnalyzer.assess_urgency`. -/
structure MLUrgency where
  level : List Char
  color : List Char
  action : List Char
  description : List Char
deriving DecidableEq

/-- The emergency-rule result of ml_symptom_analysis.py:150-155. -/
def mlEmergencyUrgency : MLUrgency :=
  ⟨lc "EMERGENCY", lc "#DC2626", lc "SEEK IMMEDIATE MEDICAL ATTENTION",
   lc "These symptoms may indicate a life-threatening condition. Call emergency services or go to the emergency room immediately."⟩

/-- The high-risk-keyword result of ml_symptom_analysis.py:160-165. -/
def mlHighUrgency : MLUrgency :=
  ⟨lc "HIGH", lc "#EA580C", lc "CONSULT DOCTOR TODAY",
   lc "These symptoms require prompt medical evaluation. Contact your healthcare provider or urgent care center today."⟩

/-- The age-based result of ml_symptom_analysis.py:177-182. -/
def mlAgeHighUrgency : MLUrgency :=
  ⟨lc "HIGH", lc "#EA580C", lc "CONSULT DOCTOR PROMPTLY",
   lc "Age-related risk factors require prompt medical evaluation for these symptoms."⟩

/-- The duration-based result of ml_symptom_analysis.py:187-192. -/
def mlDurationUrgency : MLUrgency :=
  ⟨lc "MEDIUM", lc "#D97706", lc "SCHEDULE DOCTOR VISIT",
   lc "Persistent symptoms lasting weeks should be evaluated by a healthcare provider."⟩

/-- The severity-based result of ml_symptom_analysis.py:196-201. -/
def mlSeverityUrgency : MLUrgency :=
  ⟨lc "MEDIUM", lc "#D97706", lc "CONSIDER MEDICAL CONSULTATION",
   lc "Severe symptoms warrant medical evaluation, especially if worsening."⟩

/-- The default result of ml_symptom_analysis.py:203-208. -/
def mlLowUrgency : MLUrgency :=
  ⟨lc "LOW", lc "#059669", lc "MONITOR AND SELF-CARE",
   lc "These symptoms can likely be managed with self-care. Seek medical attention if symptoms worsen or persist."⟩

/-- Decimal-digit run to a number, `none` when empty or non-digit. -/
def digitsVal (ds : List Char) : Option ℕ :=
  if ds ≠ [] ∧ ds.all (fun c => c.isDigit) then
    some (ds.foldl (fun n c => 10 * n + (c.toNat - 48)) 0)
  else none

/-- Python `int(s)` on a string: optional surrounding whitespace, optional
sign, then decimal digits; `none` models `ValueError`.  (Underscore digit
separators, which Python also accepts, are not modelled; no claim depends
on them.) -/
def pyInt (s : List Char) : Option ℤ :=
  match pyStrip s with
  | '+' :: ds => (digitsVal ds).map (fun n => (n : ℤ))
  | '-' :: ds => (digitsVal ds).map (fun n => -(n : ℤ))
  | ds => (digitsVal ds).map (fun n => (n : ℤ))

/-- `MLSymptomAnalyzer.assess_urgency` (ml_symptom_analysis.py:141-208): a
rule cascade over `' '.join(symptoms).lower()`; the first rule that fires
returns.  `gender` and `medical_history` are accepted and never read, as in
the source.  `int(age) if age else 0` with `ValueError` caught leaving the
initial `0` is modelled by `(pyInt age).getD 0` (note `pyInt [] = none`). -/
def assess_urgency (symptoms : List (List Char))
    (age gender duration medical_history : List Char) : MLUrgency :=
  let st := lowerStr (joinSpace symptoms)
  if emergency_symptoms.any (fun k => containsSub (lowerStr k) st) then
    mlEmergencyUrgency
  else if high_risk_symptoms.any (fun k => containsSub (lowerStr k) st) then
    mlHighUrgency
  else
    let age_num : ℤ := (pyInt age).getD 0
    if (65 < age_num ∨ age_num < 2) ∧
        [lc "fever", lc "difficulty breathing", lc "chest pain"].any
          (fun k => containsSub k st) then mlAgeHighUrgency
    else if lowerStr duration ≠ [] ∧
        [lc "week", lc "weeks", lc "month", lc "months"].any
          (fun w => containsSub w (lowerStr duration)) then mlDurationUrgency
    else if [lc "severe", lc "intense", lc "unbearable", lc "worsening"].any
        (fun w => containsSub w st) then mlSeverityUrgency
    else mlLowUrgency

/-! ### Recommendation and clarifying-question generators -/

/-- `any(term in text for term in terms)`. -/
def anyTermIn (terms : List (List Char)) (text : List Char) : Bool :=
  terms.any (fun t => containsSub t text)

/-- `SymptomAnalyzer.generate_recommendations` (symptom_analysis.py:172-265):
urgency block, then keyword blocks over `' '.join(symptoms).lower()`, then
top-disease blocks; duplicates removed keeping first occurrence; truncated
to 8. -/
def generate_recommendations_sa (symptoms : List (List Char))
    (urgency_level : List Char) (matched : List DiseaseMatch) :
    List (List Char) :=
  let lvl := lowerStr urgency_level
  let base :=
    if lvl = lc "high" then
      [lc "Seek immediate medical attention",
       lc "Call emergency services if symptoms are severe",
       lc "Do not delay medical care",
       lc "Have someone accompany you to the hospital if possible"]
    else if lvl = lc "medium" then
      [lc "Schedule an appointment with your healthcare provider",
       lc "Monitor symptoms closely and keep a symptom diary",
       lc "Seek immediate care if symptoms worsen"]
    else
      [lc "Get adequate rest and sleep",
       lc "Stay well hydrated with water and clear fluids",
       lc "Monitor symptoms and seek care if they worsen or persist"]
  let ust := lowerStr (joinSpace symptoms)
  let feverBlock :=
    if anyTermIn [lc "fever", lc "temperature", lc "hot", lc "chills"] ust then
      [lc "Monitor body temperature regularly",
       lc "Use over-the-counter fever reducers as directed",
       lc "Apply cool compresses to help reduce fever"]
    else []
  let coughBlock :=
    if anyTermIn [lc "cough", lc "throat", lc "sore"] ust then
      [lc "Use throat lozenges or warm salt water gargle",
       lc "Stay hydrated with warm liquids like tea with honey",
       lc "Use a humidifier to add moisture to the air"]
    else []
  let headBlock :=
    if anyTermIn [lc "headache", lc "head pain", lc "migraine"] ust then
      [lc "Apply cold or warm compress to head or neck",
       lc "Rest in a quiet, dark room",
       lc "Ensure adequate sleep and manage stress levels"]
    else []
  let nauseaBlock :=
    if anyTermIn [lc "nausea", lc "stomach", lc "abdominal", lc "vomiting"] ust then
      [lc "Try bland foods like crackers, toast, or rice",
       lc "Avoid spicy, fatty, or dairy foods",
       lc "Sip clear fluids slowly to prevent dehydration"]
    else []
  let painBlock :=
    if anyTermIn [lc "pain", lc "ache", lc "sore"] ust then
      [lc "Apply ice or heat as appropriate for pain relief",
       lc "Consider over-the-counter pain relievers as directed",
       lc "Avoid activities that worsen the pain"]
    else []
  let diseaseBlock :=
    match matched.head? with
    | none => []
    | some top =>
      let td := lowerStr top.disease
      (if containsSub (lc "cold") td || containsSub (lc "flu") td then
        [lc "Increase vitamin C intake through citrus fruits",
         lc "Wash hands frequently to prevent spread"]
      else []) ++
      (if containsSub (lc "allerg") td then
        [lc "Identify and avoid potential allergens",
         lc "Consider antihistamines if appropriate"]
      else []) ++
      (if containsSub (lc "anxiety") td || containsSub (lc "stress") td then
        [lc "Practice deep breathing exercises",
         lc "Try relaxation techniques or meditation"]
      else [])
  (pyDedup (base ++ feverBlock ++ coughBlock ++ headBlock ++ nauseaBlock ++
    painBlock ++ diseaseBlock)).take 8

/-- `SymptomAnalyzer.generate_clarifying_questions`
(symptom_analysis.py:267-320): keyword blocks over `user_input.lower()`, a
duration question when no time word is present, then three context
questions; `list(dict.fromkeys(...))[:5]`. -/
def generate_clarifying_questions (symptoms : List (List Char))
    (user_input : List Char) : List (List Char) :=
  let ui := lowerStr user_input
  let painQs :=
    if anyTermIn [lc "pain", lc "ache", lc "hurt"] ui then
      [lc "On a scale of 1-10, how would you rate the pain intensity?",
       lc "Is the pain constant or does it come and go?",
       lc "Does anything make the pain better or worse?"]
    else []
  let feverQs :=
    if anyTermIn [lc "fever", lc "temperature"] ui then
      [lc "Have you measured your temperature? What was the reading?",
       lc "Are you experiencing chills or night sweats?",
       lc "How long have you had the fever?"]
    else []
  let coughQs :=
    if anyTermIn [lc "cough", lc "breathing", lc "chest"] ui then
      [lc "Are you experiencing any difficulty breathing?",
       lc "Is the cough producing any phlegm or blood?",
       lc "Does the cough interfere with your sleep?"]
    else []
  let headQs :=
    if anyTermIn [lc "headache", lc "head"] ui then
      [lc "Where exactly is the headache located?",
       lc "Are you experiencing any vision changes or sensitivity to light?",
       lc "Have you had similar headaches before?"]
    else []
  let stomachQs :=
    if anyTermIn [lc "stomach", lc "nausea", lc "abdominal"] ui then
      [lc "Have you had any recent changes in diet?",
       lc "Are you experiencing any vomiting or diarrhea?",
       lc "When did you last have a normal bowel movement?"]
    else []
  let durationQs :=
    if anyTermIn [lc "day", lc "week", lc "month", lc "hour", lc "ago",
                  lc "since"] ui then []
    else [lc "When did these symptoms first start?"]
  let contextQs :=
    [lc "Have you traveled recently or been exposed to anyone who was ill?",
     lc "Are you currently taking any medications or supplements?",
     lc "Do you have any known allergies or medical conditions?"]
  (pyDedup (painQs ++ feverQs ++ coughQs ++ headQs ++ stomachQs ++
    durationQs ++ contextQs)).take 5

/-- `MLSymptomAnalyzer.generate_recommendations`
(ml_symptom_analysis.py:210-279): urgency block (exact match on the level
string, no lower-casing here), keyword blocks, age-specific additions, then
`list(dict.fromkeys(...))[:10]`.  The `predictions` parameter is accepted
and never read, as in the source.  The garbled emoji characters are
byte-for-byte what the source file contains. -/
def generate_recommendations_ml (symptoms : List (List Char))
    (urgency_level : List Char) (age : List Char) : List (List Char) :=
  let st := lowerStr (joinSpace symptoms)
  let base :=
    if urgency_level = lc "EMERGENCY" then
      [lc "ðŸš¨ Call emergency services (911/108) immediately",
       lc "ðŸ¥ Go to the nearest emergency room",
       lc "ðŸ‘¥ Have someone accompany you if possible",
       lc "ðŸ“ Bring a list of current medications"]
    else if urgency_level = lc "HIGH" then
      [lc "ðŸ“ž Contact your doctor or urgent care center today",
       lc "ðŸ“‹ Monitor symptoms closely and note any changes",
       lc "ðŸš¨ Seek immediate care if symptoms worsen",
       lc "ðŸ’Š Bring current medications list to appointment"]
    else
      [lc "ðŸ’§ Stay well hydrated with water",
       lc "ðŸ˜´ Get adequate rest and sleep",
       lc "ðŸŒ¡ï¸ Monitor symptoms and keep a symptom diary"]
  let feverBlock :=
    if anyTermIn [lc "fever", lc "temperature", lc "hot"] st then
      [lc "ðŸŒ¡ï¸ Monitor temperature regularly",
       lc "ðŸ§Š Apply cool compresses to reduce fever",
       lc "ðŸ’Š Consider acetaminophen or ibuprofen as directed"]
    else []
  let coughBlock :=
    if anyTermIn [lc "cough", lc "throat"] st then
      [lc "ðŸ¯ Try warm honey and lemon for throat relief",
       lc "ðŸ’¨ Use a humidifier to add moisture to air",
       lc "ðŸš­ Avoid smoke and irritants"]
    else []
  let headBlock :=
    if anyTermIn [lc "headache", lc "head pain"] st then
      [lc "ðŸ§Š Apply cold compress to forehead",
       lc "ðŸ˜Œ Rest in a quiet, dark room",
       lc "ðŸ’§ Stay hydrated and avoid triggers"]
    else []
  let nauseaBlock :=
    if anyTermIn [lc "nausea", lc "stomach", lc "vomiting"] st then
      [lc "ðŸž Try bland foods like toast or crackers",
       lc "ðŸ¥¤ Sip clear fluids slowly",
       lc "ðŸš« Avoid spicy, fatty, or dairy foods"]
    else []
  let ageBlock :=
    if age = [] then
      [lc "ðŸ‘¶ Ensure adequate supervision and hydration"]
    else
      match pyInt age with
      | none => []
      | some n =>
        if 65 < n then
          [lc "ðŸ‘´ Consider having a family member assist with care"]
        else if n < 18 then
          [lc "ðŸ‘¶ Ensure adequate supervision and hydration"]
        else []
  (pyDedup (base ++ feverBlock ++ coughBlock ++ headBlock ++ nauseaBlock ++
    ageBlock)).take 10

/-- `MLSymptomAnalyzer.generate_questions` (ml_symptom_analysis.py:350-374):
a duration question when `duration` is empty, keyword-triggered questions,
three context questions; truncated to 5 with NO deduplication (the
appended strings are pairwise distinct, so no duplicate can arise). -/
def generate_questions (symptoms : List (List Char))
    (age duration : List Char) : List (List Char) :=
  let st := lowerStr (joinSpace symptoms)
  let durationQs :=
    if duration = [] then [lc "When did these symptoms first start?"] else []
  let painQs :=
    if anyTermIn [lc "pain", lc "ache"] st then
      [lc "On a scale of 1-10, how severe is the pain?"]
    else []
  let feverQs :=
    if containsSub (lc "fever") st then
      [lc "Have you measured your temperature? What was it?"]
    else []
  let contextQs :=
    [lc "Have you taken any medications for these symptoms?",
     lc "Have you been exposed to anyone who was ill recently?",
     lc "Are there any activities that make the symptoms better or worse?"]
  (durationQs ++ painQs ++ feverQs ++ contextQs).take 5

/-! ### Feature vector and ML prediction -/

/-- `MLSymptomAnalyzer.create_feature_vector` (ml_symptom_analysis.py:65-83):
an empty vocabulary yields the empty vector; otherwise one 0/1 entry per
vocabulary column, set to 1 when some user symptom has
`calculate_similarity > 0.7` against the column name with underscores
replaced by spaces and lower-cased.  The source sets the entry and breaks
out of the user loop at the first match, which equals the `any` here. -/
def create_feature_vector (symptom_columns : List (List Char))
    (user_symptoms : List (List Char)) : List ℕ :=
  if symptom_columns = [] then []
  else symptom_columns.map (fun col =>
    let clean := lowerStr (col.map (fun c => if c = '_' then ' ' else c))
    if user_symptoms.any (fun us =>
        7 / 10 < calculate_similarity (lowerStr us) clean) then 1 else 0)

/-- An abstract trained classifier: a label per feature vector and an
optional probability vector (`predict` / `predict_proba`).  The classifier
itself is an external scikit-learn object; only its interface matters
here. -/
structure PyModel where
  predictLabel : List ℕ → List Char
  predictProba : Option (List ℕ → List ℚ)

/-- The loaded state of an `MLSymptomAnalyzer` instance. -/
structure MLState where
  model : Option PyModel
  symptom_columns : List (List Char)
  disease_list : List (List Char)

/-- Success shape of `get_ml_prediction` (ml_symptom_analysis.py:128-135);
the derived `confidence_percentage`/`percentage` display fields are not
stored. -/
structure MLPredOk where
  primary_prediction : List Char
  confidence : ℚ
  top_predictions : List (List Char × ℚ)
  matched_symptoms_count : ℕ
  total_symptoms_checked : ℕ

/-- Stable ascending insertion by value for `np.argsort`; numpy leaves the
order of equal values unspecified, and no claim depends on it. -/
def insertAscIdx (p : List ℚ) (i : ℕ) : List ℕ → List ℕ
  | [] => [i]
  | j :: js =>
    if p.getD i 0 < p.getD j 0 then i :: j :: js else j :: insertAscIdx p i js

/-- `np.argsort(p)`: indices of `p` sorted by value ascending. -/
def argsortAsc (p : List ℚ) : List ℕ :=
  (List.range p.length).foldl (fun acc i => insertAscIdx p i acc) []

/-- Python `max(p)`; `max` of an empty sequence raises in Python — modelled
as 0, unreachable for a real probability vector. -/
def maxQ : List ℚ → ℚ
  | [] => 0
  | x :: xs => xs.foldl max x

/-- `MLSymptomAnalyzer.get_ml_prediction` (ml_symptom_analysis.py:94-139):
the error strings of the guard branches, else the prediction record built
from the classifier.  `np.argsort(proba)[-5:][::-1]` keeps the five largest
probabilities, descending, filtered to those above 0.01. -/
def get_ml_prediction (st : MLState) (user : List (List Char)) :
    Except (List Char) MLPredOk :=
  match st.model with
  | none => .error (lc "ML model not available")
  | some mdl =>
    if st.symptom_columns = [] then .error (lc "ML model not available")
    else
      let fv := create_feature_vector st.symptom_columns user
      if fv.sum = 0 then .error (lc "No matching symptoms found in model")
      else
        let pred := mdl.predictLabel fv
        match mdl.predictProba with
        | none =>
          .ok ⟨pred, 0, [], fv.sum, st.symptom_columns.length⟩
        | some proba =>
          let p := proba fv
          let top := ((argsortAsc p).drop (p.length - 5)).reverse
          let tops := top.filterMap (fun i =>
            let pi := p.getD i 0
            if 1 / 100 < pi then
              some (st.disease_list.getD i (lc "Disease_" ++ Nat.toDigits 10 i),
                    pi)
            else none)
          .ok ⟨pred, maxQ p, tops, fv.sum, st.symptom_columns.length⟩

/-! ### The two analysis orchestrators -/

/-- The generic fallback causes of symptom_analysis.py:348-354. -/
def genericCauses_sa : List (List Char) :=
  [lc "Viral infection", lc "Bacterial infection", lc "Stress or anxiety",
   lc "Dietary factors", lc "Environmental factors"]

/-- The generic fallback causes of ml_symptom_analysis.py:313-319. -/
def genericCauses_ml : List (List Char) :=
  [lc "Viral infection", lc "Bacterial infection",
   lc "Stress-related symptoms", lc "Dietary factors",
   lc "Environmental factors"]

/-- One display entry of `analysis_data.top_disease_matches`
(symptom_analysis.py:370-377); the source formats the confidence as the
string `f"{combined_score:.1f}%"`, kept here as the exact rational. -/
structure TopMatch where
  disease : List Char
  confidence : ℚ
  matched_symptoms : List (List Char)
deriving DecidableEq

/-- The result dictionary of `SymptomAnalyzer.analyze_symptoms`
(symptom_analysis.py:368-389).  Note this shape has NO error field: the
dataset analyzer always returns a full analysis. -/
structure SAAnalysis where
  possible_causes : List (List Char)
  urgency_level : List Char
  urgency_description : List Char
  recommendations : List (List Char)
  clarifying_questions : List (List Char)
  extracted_symptoms : List (List Char)
  top_disease_matches : List TopMatch
  disclaimer : List Char
deriving DecidableEq

/-- The disclaimer string of symptom_analysis.py:388. -/
def disclaimer_sa : List Char :=
  lc "This analysis is for informational purposes only and should not replace professional medical advice. Always consult with a healthcare provider for accurate diagnosis and treatment."

/-- `SymptomAnalyzer.analyze_symptoms` (symptom_analysis.py:322-391), the
top-level operation of the dataset analyzer.  The pattern-fallback count
mirrors the source quirk at line 341-342: the generator tests
`pattern in symptoms.lower()` once per extracted symptom, ignoring the
loop variable, so a pattern counts iff the symptom list is non-empty and
the pattern occurs in the RAW lowered input. -/
def analyze_symptoms (dataset : List (List Char × List (List Char)))
    (symptoms age gender duration medical_history : List Char) : SAAnalysis :=
  let symptom_list := extract_symptoms_from_text symptoms
  let matched := find_matching_diseases dataset symptom_list
  let possible0 := (matched.take 5).map (fun m => m.disease)
  let lowTop : Bool :=
    match matched.head? with
    | some m => decide (m.combined_score < 30)
    | none => false
  let possible1 :=
    if possible0 = [] ∨ lowTop then
      let added := condition_patterns.filterMap (fun cp =>
        let cnt := cp.2.countP (fun pat =>
          symptom_list.any (fun _ => containsSub pat (lowerStr symptoms)))
        if 2 ≤ cnt then some cp.1 else none)
      let causes := possible0 ++ added
      if causes = [] then genericCauses_sa else causes
    else possible0
  let urgency := calculate_urgency_level symptom_list symptoms matched
  let recs := generate_recommendations_sa symptom_list urgency.level matched
  let questions := generate_clarifying_questions symptom_list symptoms
  { possible_causes := possible1.take 5,
    urgency_level := urgency.level,
    urgency_description := urgency.description,
    recommendations := recs,
    clarifying_questions := questions,
    extracted_symptoms := symptom_list,
    top_disease_matches := (matched.take 3).map (fun m =>
      ⟨m.disease, m.combined_score, m.matched_symptoms.take 3⟩),
    disclaimer := disclaimer_sa }

/-- The short-circuit error payload of ml_symptom_analysis.py:289-293; the
source dictionary keys are `error` and `example`. -/
structure ErrPayload where
  error : List Char
  usage_example : List Char
deriving DecidableEq

/-- The success payload of `MLSymptomAnalyzer.comprehensive_analysis`
(ml_symptom_analysis.py:324-341). -/
structure MLAnalysis where
  input_symptoms : List (List Char)
  possible_causes : List (List Char)
  urgency : MLUrgency
  recommendations : List (List Char)
  clarifying_questions : List (List Char)
  ml_analysis : Option MLPredOk
  patient_age : List Char
  patient_gender : List Char
  patient_duration : List Char
  has_medical_history : Bool
  disclaimer : List Char

/-- The disclaimer string of ml_symptom_analysis.py:340 (the leading
garbled bytes are what the source file contains). -/
def disclaimer_ml : List Char :=
  lc "âš ï¸ This analysis is for informational purposes only. Always consult healthcare professionals for medical advice, diagnosis, and treatment."

/-- `MLSymptomAnalyzer.comprehensive_analysis`
(ml_symptom_analysis.py:281-348), the top-level operation of the ML
analyzer: empty preprocessed input short-circuits to the error payload
(`Except.error` here, a success-shaped dict with an `error` key in
Python); otherwise the assembled analysis.  The body never raises on this
model, so the source's final `except` handler is unreachable. -/
def comprehensive_analysis (st : MLState)
    (symptoms age gender duration medical_history : List Char) :
    Except ErrPayload MLAnalysis :=
  let symptom_list := preprocess_symptoms symptoms
  if symptom_list = [] then
    .error ⟨lc "No valid symptoms found. Please describe your symptoms clearly.",
            lc "Try: \x27fever, headache, cough\x27 or \x27stomach pain and nausea\x27"⟩
  else
    let ml_results := get_ml_prediction st symptom_list
    let urgency := assess_urgency symptom_list age gender duration
      medical_history
    let recs := generate_recommendations_ml symptom_list urgency.level age
    let possible0 :=
      match ml_results with
      | .ok r =>
        if r.top_predictions ≠ [] then (r.top_predictions.take 5).map
          (fun pr => pr.1)
        else []
      | .error _ => []
    let possible := if possible0 = [] then genericCauses_ml else possible0
    let questions := generate_questions symptom_list age duration
    .ok { input_symptoms := symptom_list,
          possible_causes := possible,
          urgency := urgency,
          recommendations := recs,
          clarifying_questions := questions,
          ml_analysis := match ml_results with
                         | .ok r => some r
                         | .error _ => none,
          patient_age := age,
          patient_gender := gender,
          patient_duration := duration,
          has_medical_history := pyStrip medical_history ≠ [],
          disclaimer := disclaimer_ml }

/-! ## Theorems -/

theorem leadsList_self (s : List Char) : leadsList s s = true := by
  induction s with
  | nil => rfl
  | cons c cs ih => simp [leadsList, ih]

theorem containsSub_self (s : List Char) : containsSub s s = true := by
  cases s with
  | nil => rfl
  | cons c cs =>
    simp only [containsSub, List.any_eq_true]
    exact ⟨c :: cs, by simp [List.tails], leadsList_self _⟩

/-- C10: `assess_urgency` never reads `gender` or `medical_history`, so two
calls that agree on `symptoms`, `age` and `duration` return identical
urgency records (level, color, action and description) whatever the gender
and medical-history arguments are. -/
theorem claim_C10 (symptoms : List (List Char))
    (age duration g₁ g₂ m₁ m₂ : List Char) :
    assess_urgency symptoms age g₁ duration m₁ =
      assess_urgency symptoms age g₂ duration m₂ := rfl

/-- C4 counterexample: for the ML analyzer the emergency scan runs on the
JOINED PREPROCESSED phrases, not on the raw text.  The raw input
"pain for chest pain" contains the configured emergency keyword
"chest pain", but the trailing-clause removal strips " for chest pain",
leaving the single phrase "pain" — and the urgency assessment of the
resulting symptom list returns the default LOW record, not EMERGENCY. -/
theorem claim_C4_counterexample :
    (lc "chest pain") ∈ emergency_symptoms ∧
    containsSub (lc "chest pain") (lowerStr (lc "pain for chest pain")) =
      true ∧
    preprocess_symptoms (lc "pain for chest pain") = [lc "pain"] ∧
    assess_urgency (preprocess_symptoms (lc "pain for chest pain"))
      (lc "") (lc "") (lc "") (lc "") = mlLowUrgency ∧
    mlLowUrgency ≠ mlEmergencyUrgency := by
  with_unfolding_all decide

/-- C4 (amended): an emergency keyword occurring (case-insensitively) in
the text the urgency assessment actually inspects forces the highest level
with no later rule evaluated.  The dataset analyzer inspects the raw input
text itself, so keyword containment in the raw input always forces the
fixed High emergency record, whatever the symptom list and matched
diseases are.  The ML analyzer inspects the joined preprocessed phrases:
containment there forces the fixed EMERGENCY record whatever the age,
gender, duration and medical history are — but a keyword present only in
the raw text and destroyed by preprocessing does not escalate (see the
counterexample). -/
theorem claim_C4 :
    (∀ (K : List Char) (symptoms : List (List Char))
        (age gender duration medical_history : List Char),
      K ∈ emergency_symptoms →
      containsSub (lowerStr K) (lowerStr (joinSpace symptoms)) = true →
      assess_urgency symptoms age gender duration medical_history =
        mlEmergencyUrgency) ∧
    (∀ (K user_input : List Char) (symptoms : List (List Char))
        (matched : List DiseaseMatch),
      K ∈ emergency_keywords →
      containsSub K (lowerStr user_input) = true →
      calculate_urgency_level symptoms user_input matched =
        saEmergencyUrgency) := by
  constructor
  · intro K symptoms age gender duration medical_history hK hsub
    have hany : emergency_symptoms.any
        (fun k => containsSub (lowerStr k) (lowerStr (joinSpace symptoms)))
        = true :=
      List.any_eq_true.mpr ⟨K, hK, hsub⟩
    simp only [assess_urgency, hany, if_true]
  · intro K user_input symptoms matched hK hsub
    have hany : emergency_keywords.any
        (fun k => containsSub k (lowerStr user_input)) = true :=
      List.any_eq_true.mpr ⟨K, hK, hsub⟩
    simp only [calculate_urgency_level, hany, if_true]

/-- C4 witness: the spec scenario — symptom text containing "chest pain"
with age 45 yields the EMERGENCY / High records in both analyzers. -/
theorem claim_C4_witness :
    assess_urgency [lc "chest pain", lc "shortness of breath"] (lc "45")
        (lc "") (lc "") (lc "") = mlEmergencyUrgency ∧
    calculate_urgency_level [lc "chest pain"]
        (lc "chest pain, shortness of breath") [] = saEmergencyUrgency := by
  constructor
  · exact claim_C4.1 (lc "chest pain")
      [lc "chest pain", lc "shortness of breath"]
      (lc "45") (lc "") (lc "") (lc "") (by decide) (by decide)
  · exact claim_C4.2 (lc "chest pain")
      (lc "chest pain, shortness of breath") [lc "chest pain"] []
      (by decide) (by decide)

/-- C9: the feature vector always has exactly one 0/1 entry per vocabulary
column, and an empty vocabulary yields the empty vector rather than an
error. -/
theorem claim_C9 (symptom_columns user_symptoms : List (List Char)) :
    (create_feature_vector symptom_columns user_symptoms).length =
      symptom_columns.length ∧
    (∀ x ∈ create_feature_vector symptom_columns user_symptoms,
      x = 0 ∨ x = 1) ∧
    create_feature_vector [] user_symptoms = [] := by
  refine ⟨?_, ?_, rfl⟩
  · by_cases h : symptom_columns = []
    · subst h; rfl
    · simp [create_feature_vector, h]
  · intro x hx
    by_cases h : symptom_columns = []
    · subst h; simp [create_feature_vector] at hx
    · simp only [create_feature_vector, if_neg h, List.mem_map] at hx
      obtain ⟨col, -, hcol⟩ := hx
      by_cases hc : user_symptoms.any (fun us =>
          7 / 10 < calculate_similarity (lowerStr us)
            (lowerStr (col.map (fun c => if c = '_' then ' ' else c)))) <;>
        simp [hc] at hcol <;> omega

/-- C9 witness: a one-column vocabulary against a matching user symptom;
the single entry 1 is in the vector and is 0 or 1. -/
theorem claim_C9_witness :
    (create_feature_vector [lc "chest_pain"] [lc "chest pain"]).length = 1 ∧
    ((1 : ℕ) = 0 ∨ (1 : ℕ) = 1) := by
  constructor
  · exact (claim_C9 [lc "chest_pain"] [lc "chest pain"]).1
  · exact (claim_C9 [lc "chest_pain"] [lc "chest pain"]).2.1 1
      (by with_unfolding_all decide)

theorem pyDedupGo_nodup (l : List (List Char)) :
    ∀ seen, (pyDedupGo seen l).Nodup ∧ ∀ x ∈ pyDedupGo seen l, x ∉ seen := by
  induction l with
  | nil => intro seen; simp [pyDedupGo]
  | cons x xs ih =>
    intro seen
    by_cases hx : x ∈ seen
    · simpa [pyDedupGo, hx] using ih seen
    · obtain ⟨hnd, hns⟩ := ih (x :: seen)
      refine ⟨?_, ?_⟩
      · simp only [pyDedupGo, if_neg hx, List.nodup_cons]
        exact ⟨fun hmem => (hns x hmem) (by simp), hnd⟩
      · intro y hy
        simp only [pyDedupGo, if_neg hx, List.mem_cons] at hy
        rcases hy with rfl | hy
        · exact hx
        · intro hyseen; exact hns y hy (by simp [hyseen])

theorem pyDedup_nodup (l : List (List Char)) : (pyDedup l).Nodup :=
  (pyDedupGo_nodup l []).1

theorem pyDedupGo_subset (l : List (List Char)) :
    ∀ seen, ∀ x ∈ pyDedupGo seen l, x ∈ l := by
  induction l with
  | nil => intro seen x hx; simp [pyDedupGo] at hx
  | cons a as ih =>
    intro seen x hx
    by_cases ha : a ∈ seen
    · simp only [pyDedupGo, if_pos ha] at hx
      exact List.mem_cons_of_mem _ (ih seen x hx)
    · simp only [pyDedupGo, if_neg ha, List.mem_cons] at hx
      rcases hx with rfl | hx
      · exact List.mem_cons_self _ _
      · exact List.mem_cons_of_mem _ (ih (a :: seen) x hx)

theorem pyDedup_subset (l : List (List Char)) : ∀ x ∈ pyDedup l, x ∈ l :=
  pyDedupGo_subset l []

/-- C8: every generated recommendation list respects its cap (10 for the
ML analyzer, 8 for the dataset analyzer), every clarifying-question list
respects the cap of 5, and none of the four lists contains a duplicate
entry.  The ML question generator has no deduplication step, but the
strings it can append are pairwise distinct. -/
theorem claim_C8 (symptoms : List (List Char))
    (urgency_level age user_input duration : List Char)
    (matched : List DiseaseMatch) :
    ((generate_recommendations_ml symptoms urgency_level age).length ≤ 10 ∧
      (generate_recommendations_ml symptoms urgency_level age).Nodup) ∧
    ((generate_recommendations_sa symptoms urgency_level matched).length ≤ 8 ∧
      (generate_recommendations_sa symptoms urgency_level matched).Nodup) ∧
    ((generate_clarifying_questions symptoms user_input).length ≤ 5 ∧
      (generate_clarifying_questions symptoms user_input).Nodup) ∧
    ((generate_questions symptoms age duration).length ≤ 5 ∧
      (generate_questions symptoms age duration).Nodup) := by
  refine ⟨⟨?_, ?_⟩, ⟨?_, ?_⟩, ⟨?_, ?_⟩, ⟨?_, ?_⟩⟩
  · simp [generate_recommendations_ml]
  · exact (pyDedup_nodup _).sublist (List.take_sublist _ _)
  · simp [generate_recommendations_sa]
  · exact (pyDedup_nodup _).sublist (List.take_sublist _ _)
  · simp [generate_clarifying_questions]
  · exact (pyDedup_nodup _).sublist (List.take_sublist _ _)
  · simp [generate_questions]
  · simp only [generate_questions]
    split_ifs <;> decide

/-! ### Stable sorting of disease matches -/

theorem mem_insertDesc {x y : DiseaseMatch} :
    ∀ {l : List DiseaseMatch}, y ∈ insertDesc x l ↔ y = x ∨ y ∈ l := by
  intro l
  induction l with
  | nil => simp [insertDesc]
  | cons z zs ih =>
    by_cases h : z.combined_score < x.combined_score
    · simp [insertDesc, h]
    · simp only [insertDesc, if_neg h, List.mem_cons, ih]
      tauto

theorem pairwise_insertDesc {x : DiseaseMatch} {l : List DiseaseMatch}
    (h : l.Pairwise (fun a b => b.combined_score ≤ a.combined_score)) :
    (insertDesc x l).Pairwise
      (fun a b => b.combined_score ≤ a.combined_score) := by
  induction l with
  | nil => simp [insertDesc]
  | cons y ys ih =>
    rcases List.pairwise_cons.mp h with ⟨hy, hys⟩
    by_cases hlt : y.combined_score < x.combined_score
    · simp only [insertDesc, if_pos hlt]
      refine List.pairwise_cons.mpr ⟨?_, h⟩
      intro z hz
      rcases List.mem_cons.mp hz with rfl | hz
      · exact le_of_lt hlt
      · exact le_trans (hy z hz) (le_of_lt hlt)
    · simp only [insertDesc, if_neg hlt]
      refine List.pairwise_cons.mpr ⟨?_, ih hys⟩
      intro z hz
      rcases mem_insertDesc.mp hz with rfl | hz
      · exact le_of_not_lt hlt
      · exact hy z hz

theorem filter_insertDesc (c : ℚ) {x : DiseaseMatch} {l : List DiseaseMatch}
    (h : l.Pairwise (fun a b => b.combined_score ≤ a.combined_score)) :
    (insertDesc x l).filter (fun m => decide (m.combined_score = c)) =
      l.filter (fun m => decide (m.combined_score = c)) ++
        (if x.combined_score = c then [x] else []) := by
  induction l with
  | nil =>
    by_cases hx : x.combined_score = c <;> simp [insertDesc, hx]
  | cons y ys ih =>
    rcases List.pairwise_cons.mp h with ⟨hy, hys⟩
    by_cases hlt : y.combined_score < x.combined_score
    · simp only [insertDesc, if_pos hlt]
      by_cases hx : x.combined_score = c
      · have hnone : ∀ z ∈ y :: ys, ¬ z.combined_score = c := by
          intro z hz
          rcases List.mem_cons.mp hz with rfl | hz
          · intro hzc
            rw [hzc, hx] at hlt
            exact lt_irrefl c hlt
          · intro hzc
            have hzy := hy z hz
            rw [hzc, ← hx] at hzy
            exact absurd (lt_of_lt_of_le hlt hzy) (lt_irrefl _)
        have hfil : (y :: ys).filter
            (fun m => decide (m.combined_score = c)) = [] := by
          apply List.filter_eq_nil_iff.mpr
          intro z hz
          simpa using hnone z hz
        simp [hx, hfil]
      · simp [hx, List.filter_cons]
    · simp only [insertDesc, if_neg hlt]
      rw [List.filter_cons, List.filter_cons, ih hys]
      by_cases hyc : y.combined_score = c <;> simp [hyc]

theorem pairwise_sortDescAux (l : List DiseaseMatch) :
    ∀ acc, acc.Pairwise (fun a b => b.combined_score ≤ a.combined_score) →
      (l.foldl (fun acc x => insertDesc x acc) acc).Pairwise
        (fun a b => b.combined_score ≤ a.combined_score) := by
  induction l with
  | nil => intro acc h; simpa using h
  | cons x xs ih =>
    intro acc h
    exact ih (insertDesc x acc) (pairwise_insertDesc h)

theorem pairwise_sortDesc (l : List DiseaseMatch) :
    (sortDesc l).Pairwise (fun a b => b.combined_score ≤ a.combined_score) :=
  pairwise_sortDescAux l [] (by simp)

theorem filter_sortDescAux (c : ℚ) (l : List DiseaseMatch) :
    ∀ acc, acc.Pairwise (fun a b => b.combined_score ≤ a.combined_score) →
      (l.foldl (fun acc x => insertDesc x acc) acc).filter
          (fun m => decide (m.combined_score = c)) =
        acc.filter (fun m => decide (m.combined_score = c)) ++
          l.filter (fun m => decide (m.combined_score = c)) := by
  induction l with
  | nil => intro acc h; simp
  | cons x xs ih =>
    intro acc h
    rw [List.foldl_cons, ih (insertDesc x acc) (pairwise_insertDesc h),
      filter_insertDesc c h, List.filter_cons]
    by_cases hx : x.combined_score = c <;> simp [hx]

theorem filter_sortDesc (c : ℚ) (l : List DiseaseMatch) :
    (sortDesc l).filter (fun m => decide (m.combined_score = c)) =
      l.filter (fun m => decide (m.combined_score = c)) := by
  simpa using filter_sortDescAux c l [] (by simp)

theorem mem_sortDescAux (l : List DiseaseMatch) :
    ∀ acc x, x ∈ l.foldl (fun acc x => insertDesc x acc) acc ↔
      x ∈ acc ∨ x ∈ l := by
  induction l with
  | nil => intro acc x; simp
  | cons y ys ih =>
    intro acc x
    rw [List.foldl_cons, ih, mem_insertDesc]
    simp only [List.mem_cons]
    tauto

theorem mem_sortDesc {l : List DiseaseMatch} {x : DiseaseMatch} :
    x ∈ sortDesc l ↔ x ∈ l := by
  rw [sortDesc, mem_sortDescAux]
  simp

/-- C5: the list `find_matching_diseases` returns is sorted by
`combined_score` descending, and entries with equal `combined_score` keep
the order of `matchRows`, the unsorted per-disease rows built in dataset
iteration order (Python `list.sort` with `reverse=True` is stable). -/
theorem claim_C5 (dataset : List (List Char × List (List Char)))
    (user : List (List Char)) :
    (find_matching_diseases dataset user).Pairwise
      (fun a b => b.combined_score ≤ a.combined_score) ∧
    ∀ c : ℚ, (find_matching_diseases dataset user).filter
        (fun m => decide (m.combined_score = c)) =
      (matchRows dataset user).filter
        (fun m => decide (m.combined_score = c)) :=
  ⟨pairwise_sortDesc _, fun c => filter_sortDesc c _⟩

/-! ### Properties of the SequenceMatcher model -/

theorem commonLead_le_left : ∀ a b : List Char, commonLead a b ≤ a.length := by
  intro a
  induction a with
  | nil => intro b; cases b <;> simp [commonLead]
  | cons c cs ih =>
    intro b
    cases b with
    | nil => simp [commonLead]
    | cons d ds =>
      by_cases h : c = d <;> simp [commonLead, h]
      exact ih ds

theorem commonLead_le_right : ∀ a b : List Char, commonLead a b ≤ b.length := by
  intro a
  induction a with
  | nil => intro b; cases b <;> simp [commonLead]
  | cons c cs ih =>
    intro b
    cases b with
    | nil => simp [commonLead]
    | cons d ds =>
      by_cases h : c = d <;> simp [commonLead, h]
      exact ih ds

theorem commonLead_self : ∀ x : List Char, commonLead x x = x.length := by
  intro x
  induction x with
  | nil => rfl
  | cons c cs ih => simp [commonLead, ih]

theorem mem_startPairs {p : ℕ × ℕ} {la lb : ℕ} (h : p ∈ startPairs la lb) :
    p.1 < la ∧ p.2 < lb := by
  simp only [startPairs, List.mem_flatMap, List.mem_map, List.mem_range] at h
  obtain ⟨i, hi, j, hj, rfl⟩ := h
  exact ⟨hi, hj⟩

theorem mem_startPairs_of {i j la lb : ℕ} (hi : i < la) (hj : j < lb) :
    (i, j) ∈ startPairs la lb := by
  simp only [startPairs, List.mem_flatMap, List.mem_map, List.mem_range]
  exact ⟨i, hi, j, hj, rfl⟩

theorem startPairs_pairwise (la lb : ℕ) :
    (startPairs la lb).Pairwise
      (fun p q : ℕ × ℕ => p.1 < q.1 ∨ (p.1 = q.1 ∧ p.2 < q.2)) := by
  induction la with
  | zero => simp [startPairs]
  | succ n ih =>
    have hsplit : startPairs (n + 1) lb =
        startPairs n lb ++ (List.range lb).map (fun j => (n, j)) := by
      simp [startPairs, List.range_succ]
    rw [hsplit, List.pairwise_append]
    refine ⟨ih, ?_, ?_⟩
    · rw [List.pairwise_map]
      exact (List.pairwise_lt_range lb).imp fun h => Or.inr ⟨rfl, h⟩
    · intro p hp q hq
      obtain ⟨j, -, rfl⟩ := List.mem_map.mp hq
      exact Or.inl (mem_startPairs hp).1

theorem find?_first_spec {α : Type} (p : α → Bool) :
    ∀ (l : List α) (a : α), l.find? p = some a →
      ∃ pre post, l = pre ++ a :: post ∧ ∀ b ∈ pre, p b = false := by
  intro l
  induction l with
  | nil => intro a h; simp at h
  | cons x xs ih =>
    intro a h
    by_cases hx : p x
    · rw [List.find?_cons_of_pos _ hx] at h
      obtain rfl := Option.some_injective _ h
      exact ⟨[], xs, rfl, by simp⟩
    · rw [List.find?_cons_of_neg _ hx] at h
      obtain ⟨pre, post, heq, hpre⟩ := ih a h
      refine ⟨x :: pre, post, by rw [List.cons_append, heq], ?_⟩
      intro b hb
      rcases List.mem_cons.mp hb with rfl | hb
      · simpa using hx
      · exact hpre b hb

theorem foldl_max_le (f : ℕ × ℕ → ℕ) (m : ℕ) :
    ∀ (l : List (ℕ × ℕ)) (init : ℕ), init ≤ m → (∀ p ∈ l, f p ≤ m) →
      l.foldl (fun acc p => max acc (f p)) init ≤ m := by
  intro l
  induction l with
  | nil => intro init h _; simpa using h
  | cons p ps ih =>
    intro init hinit hall
    simp only [List.foldl_cons]
    exact ih _ (max_le hinit (hall p (by simp)))
      (fun q hq => hall q (by simp [hq]))

theorem init_le_foldl_max (f : ℕ × ℕ → ℕ) :
    ∀ (l : List (ℕ × ℕ)) (init : ℕ),
      init ≤ l.foldl (fun acc p => max acc (f p)) init := by
  intro l
  induction l with
  | nil => intro init; simp
  | cons p ps ih =>
    intro init
    simp only [List.foldl_cons]
    exact le_trans (le_max_left _ _) (ih (max init (f p)))

theorem le_foldl_max (f : ℕ × ℕ → ℕ) :
    ∀ (l : List (ℕ × ℕ)) (init : ℕ) (p : ℕ × ℕ), p ∈ l →
      f p ≤ l.foldl (fun acc p => max acc (f p)) init := by
  intro l
  induction l with
  | nil => intro init p hp; simp at hp
  | cons q qs ih =>
    intro init p hp
    rcases List.mem_cons.mp hp with rfl | hp
    · simp only [List.foldl_cons]
      exact le_trans (le_max_right _ _) (init_le_foldl_max f qs _)
    · simp only [List.foldl_cons]
      exact ih _ p hp

theorem npLead_le_left (pop : Char → Bool) :
    ∀ a b : List Char, npLead pop a b ≤ a.length := by
  intro a
  induction a with
  | nil => intro b; cases b <;> simp [npLead]
  | cons c cs ih =>
    intro b
    cases b with
    | nil => simp [npLead]
    | cons d ds =>
      by_cases h : c = d ∧ pop d = false
      · simp only [npLead, if_pos h, List.length_cons]
        exact Nat.succ_le_succ (ih ds)
      · simp only [npLead, if_neg h]
        exact Nat.zero_le _

theorem npLead_le_right (pop : Char → Bool) :
    ∀ a b : List Char, npLead pop a b ≤ b.length := by
  intro a
  induction a with
  | nil => intro b; cases b <;> simp [npLead]
  | cons c cs ih =>
    intro b
    cases b with
    | nil => simp [npLead]
    | cons d ds =>
      by_cases h : c = d ∧ pop d = false
      · simp only [npLead, if_pos h, List.length_cons]
        exact Nat.succ_le_succ (ih ds)
      · simp only [npLead, if_neg h]
        exact Nat.zero_le _

theorem npLead_le_self_right (pop : Char → Bool) :
    ∀ a b : List Char, npLead pop a b ≤ npLead pop b b := by
  intro a
  induction a with
  | nil => intro b; cases b <;> simp [npLead]
  | cons c cs ih =>
    intro b
    cases b with
    | nil => simp [npLead]
    | cons d ds =>
      by_cases h : c = d ∧ pop d = false
      · have h2 : npLead pop (c :: cs) (d :: ds) = npLead pop cs ds + 1 := by
          simp [npLead, h]
        have h3 : npLead pop (d :: ds) (d :: ds) = npLead pop ds ds + 1 := by
          simp [npLead, h.2]
        rw [h2, h3]
        exact Nat.succ_le_succ (ih ds)
      · simp only [npLead, if_neg h]
        exact Nat.zero_le _

theorem npLead_le_self_left (pop : Char → Bool) :
    ∀ a b : List Char, npLead pop a b ≤ npLead pop a a := by
  intro a
  induction a with
  | nil => intro b; cases b <;> simp [npLead]
  | cons c cs ih =>
    intro b
    cases b with
    | nil => simp [npLead]
    | cons d ds =>
      by_cases h : c = d ∧ pop d = false
      · have hpc : pop c = false := by rw [h.1]; exact h.2
        have h2 : npLead pop (c :: cs) (d :: ds) = npLead pop cs ds + 1 := by
          simp [npLead, h]
        have h3 : npLead pop (c :: cs) (c :: cs) = npLead pop cs cs + 1 := by
          simp [npLead, hpc]
        rw [h2, h3]
        exact Nat.succ_le_succ (ih ds)
      · simp only [npLead, if_neg h]
        exact Nat.zero_le _

theorem dpSize_le_left (pop : Char → Bool) (a b : List Char) :
    dpSize pop a b ≤ a.length := by
  refine foldl_max_le _ _ _ 0 (Nat.zero_le _) ?_
  intro p _
  exact le_trans (npLead_le_left pop _ _) (by simp)

theorem dpSize_le_right (pop : Char → Bool) (a b : List Char) :
    dpSize pop a b ≤ b.length := by
  refine foldl_max_le _ _ _ 0 (Nat.zero_le _) ?_
  intro p _
  exact le_trans (npLead_le_right pop _ _) (by simp)

theorem dpBest_cases (pop : Char → Bool) (a b : List Char) :
    dpBest pop a b = ((0 : ℕ), (0 : ℕ)) ∨
      (dpBest pop a b ∈ startPairs a.length b.length ∧
        npLead pop (a.drop (dpBest pop a b).1) (b.drop (dpBest pop a b).2) =
          dpSize pop a b) := by
  unfold dpBest
  cases hfind : (startPairs a.length b.length).find?
      (fun p => npLead pop (a.drop p.1) (b.drop p.2) == dpSize pop a b) with
  | none => exact Or.inl rfl
  | some p =>
    refine Or.inr ⟨List.mem_of_find?_eq_some hfind, ?_⟩
    have hpred := List.find?_some hfind
    simpa using hpred

theorem flmExt_bounds (pop : Char → Bool) (a b : List Char) :
    (flmExt pop a b).1 + (flmExt pop a b).2.2 ≤ a.length ∧
    (flmExt pop a b).2.1 + (flmExt pop a b).2.2 ≤ b.length := by
  obtain hz | ⟨hmem, hk⟩ := dpBest_cases pop a b
  · have hka := dpSize_le_left pop a b
    have hkb := dpSize_le_right pop a b
    have hf1 : extRight a b 0 0 (dpSize pop a b) ≤
        a.length - dpSize pop a b := by
      refine le_trans (commonLead_le_left _ _) ?_
      simp only [List.length_drop]
      omega
    have hf2 : extRight a b 0 0 (dpSize pop a b) ≤
        b.length - dpSize pop a b := by
      refine le_trans (commonLead_le_right _ _) ?_
      simp only [List.length_drop]
      omega
    have he : extLeft a b 0 0 = 0 := by
      simp [extLeft, commonLead]
    unfold flmExt
    rw [hz]
    dsimp only
    rw [he]
    constructor <;> omega
  · have hij := mem_startPairs hmem
    have h1 : dpSize pop a b ≤ a.length - (dpBest pop a b).1 := by
      rw [← hk]
      refine le_trans (npLead_le_left pop _ _) ?_
      simp only [List.length_drop]
      omega
    have h2 : dpSize pop a b ≤ b.length - (dpBest pop a b).2 := by
      rw [← hk]
      refine le_trans (npLead_le_right pop _ _) ?_
      simp only [List.length_drop]
      omega
    have he1 : extLeft a b (dpBest pop a b).1 (dpBest pop a b).2 ≤
        (dpBest pop a b).1 := by
      refine le_trans (commonLead_le_left _ _) ?_
      simp only [List.length_reverse, List.length_take]
      omega
    have he2 : extLeft a b (dpBest pop a b).1 (dpBest pop a b).2 ≤
        (dpBest pop a b).2 := by
      refine le_trans (commonLead_le_right _ _) ?_
      simp only [List.length_reverse, List.length_take]
      omega
    have hf1 : extRight a b (dpBest pop a b).1 (dpBest pop a b).2
        (dpSize pop a b) ≤
        a.length - ((dpBest pop a b).1 + dpSize pop a b) := by
      refine le_trans (commonLead_le_left _ _) ?_
      simp only [List.length_drop]
      omega
    have hf2 : extRight a b (dpBest pop a b).1 (dpBest pop a b).2
        (dpSize pop a b) ≤
        b.length - ((dpBest pop a b).2 + dpSize pop a b) := by
      refine le_trans (commonLead_le_right _ _) ?_
      simp only [List.length_drop]
      omega
    unfold flmExt
    constructor <;> dsimp only <;> omega

theorem dpBest_self_diag (pop : Char → Bool) (x : List Char) :
    (dpBest pop x x).1 = (dpBest pop x x).2 := by
  unfold dpBest
  cases hfind : (startPairs x.length x.length).find?
      (fun p => npLead pop (x.drop p.1) (x.drop p.2) == dpSize pop x x) with
  | none => rfl
  | some p =>
    obtain ⟨i0, j0⟩ := p
    dsimp only
    by_contra hne
    have hmem : (i0, j0) ∈ startPairs x.length x.length :=
      List.mem_of_find?_eq_some hfind
    have hij := mem_startPairs hmem
    dsimp only at hij
    have hpred := List.find?_some hfind
    have hk : npLead pop (x.drop i0) (x.drop j0) = dpSize pop x x := by
      simpa using hpred
    have hmlt : min i0 j0 < x.length := by omega
    have hmm : (min i0 j0, min i0 j0) ∈ startPairs x.length x.length :=
      mem_startPairs_of hmlt hmlt
    have hup : npLead pop (x.drop (min i0 j0)) (x.drop (min i0 j0)) ≤
        dpSize pop x x := by
      unfold dpSize
      exact le_foldl_max (fun p => npLead pop (x.drop p.1) (x.drop p.2))
        _ _ _ hmm
    have hdown : dpSize pop x x ≤
        npLead pop (x.drop (min i0 j0)) (x.drop (min i0 j0)) := by
      rcases Nat.lt_or_ge i0 j0 with hlt | hge
      · have hmi : min i0 j0 = i0 := by omega
        rw [hmi, ← hk]
        exact npLead_le_self_left pop (x.drop i0) (x.drop j0)
      · have hmj : min i0 j0 = j0 := by omega
        rw [hmj, ← hk]
        exact npLead_le_self_right pop (x.drop i0) (x.drop j0)
    obtain ⟨pre, post, hdecomp, hpre⟩ := find?_first_spec _ _ _ hfind
    have hpw := startPairs_pairwise x.length x.length
    rw [hdecomp] at hpw
    have hmm2 : (min i0 j0, min i0 j0) ∈ pre ++ (i0, j0) :: post := by
      rw [← hdecomp]; exact hmm
    rcases List.mem_append.mp hmm2 with hin | hin
    · have hfalse := hpre _ hin
      simp only [beq_eq_false_iff_ne, ne_eq] at hfalse
      exact hfalse (le_antisymm hup hdown)
    · rcases List.mem_cons.mp hin with heq | hin
      · rw [Prod.mk.injEq] at heq
        omega
      · have hlex := (List.pairwise_cons.mp
            (List.pairwise_append.mp hpw).2.1).1 _ hin
        dsimp only at hlex
        omega

theorem flmExt_self (pop : Char → Bool) (x : List Char) :
    flmExt pop x x = ((0 : ℕ), (0 : ℕ), x.length) := by
  rcases hbest : dpBest pop x x with ⟨i, j⟩
  have hdiag : i = j := by
    have hd := dpBest_self_diag pop x
    rw [hbest] at hd
    exact hd
  subst hdiag
  have hile : i ≤ x.length := by
    obtain hz | ⟨hmem, -⟩ := dpBest_cases pop x x
    · rw [hbest, Prod.mk.injEq] at hz
      omega
    · rw [hbest] at hmem
      exact le_of_lt (mem_startPairs hmem).1
  have hkle : dpSize pop x x ≤ x.length - i := by
    obtain hz | ⟨hmem, hnp⟩ := dpBest_cases pop x x
    · rw [hbest, Prod.mk.injEq] at hz
      have := dpSize_le_left pop x x
      omega
    · rw [hbest] at hnp
      dsimp only at hnp
      rw [← hnp]
      refine le_trans (npLead_le_left pop _ _) ?_
      simp only [List.length_drop]
      omega
  have he : extLeft x x i i = i := by
    unfold extLeft
    rw [commonLead_self, List.length_reverse, List.length_take]
    omega
  have hf : extRight x x i i (dpSize pop x x) =
      x.length - (i + dpSize pop x x) := by
    unfold extRight
    rw [commonLead_self, List.length_drop]
  unfold flmExt
  rw [hbest]
  dsimp only
  rw [he, hf, Prod.mk.injEq, Prod.mk.injEq]
  refine ⟨by omega, by omega, by omega⟩

theorem matchTotalGo_nil (pop : Char → Bool) :
    ∀ fuel : ℕ, matchTotalGo pop fuel [] [] = 0 := by
  intro fuel
  cases fuel <;> rfl

theorem matchTotalGo_le_left (pop : Char → Bool) :
    ∀ (fuel : ℕ) (a b : List Char), matchTotalGo pop fuel a b ≤ a.length := by
  intro fuel
  induction fuel with
  | zero => intro a b; simp [matchTotalGo]
  | succ f ih =>
    intro a b
    have hb := flmExt_bounds pop a b
    simp only [matchTotalGo]
    split
    · exact Nat.zero_le _
    · have h1 := ih (a.take (flmExt pop a b).1) (b.take (flmExt pop a b).2.1)
      have h2 := ih (a.drop ((flmExt pop a b).1 + (flmExt pop a b).2.2))
        (b.drop ((flmExt pop a b).2.1 + (flmExt pop a b).2.2))
      simp only [List.length_take, List.length_drop] at h1 h2
      omega

theorem matchTotalGo_le_right (pop : Char → Bool) :
    ∀ (fuel : ℕ) (a b : List Char), matchTotalGo pop fuel a b ≤ b.length := by
  intro fuel
  induction fuel with
  | zero => intro a b; simp [matchTotalGo]
  | succ f ih =>
    intro a b
    have hb := flmExt_bounds pop a b
    simp only [matchTotalGo]
    split
    · exact Nat.zero_le _
    · have h1 := ih (a.take (flmExt pop a b).1) (b.take (flmExt pop a b).2.1)
      have h2 := ih (a.drop ((flmExt pop a b).1 + (flmExt pop a b).2.2))
        (b.drop ((flmExt pop a b).2.1 + (flmExt pop a b).2.2))
      simp only [List.length_take, List.length_drop] at h1 h2
      omega

theorem matchTotal_le_left (a b : List Char) : matchTotal a b ≤ a.length :=
  matchTotalGo_le_left _ _ a b

theorem matchTotal_le_right (a b : List Char) : matchTotal a b ≤ b.length :=
  matchTotalGo_le_right _ _ a b

theorem matchTotal_self (x : List Char) : matchTotal x x = x.length := by
  by_cases hx : x = []
  · subst hx; rfl
  · have hn : 0 < x.length := List.length_pos.mpr hx
    obtain ⟨f, hf⟩ : ∃ f, x.length + x.length = f + 1 :=
      ⟨x.length + x.length - 1, by omega⟩
    rw [matchTotal, hf]
    simp only [matchTotalGo, flmExt_self]
    rw [if_neg (by omega)]
    simp [matchTotalGo_nil, List.drop_length]

theorem pyRatio_self (x : List Char) : pyRatio x x = 1 := by
  by_cases hx : x = []
  · subst hx; rfl
  · have hn : 0 < x.length := List.length_pos.mpr hx
    have hne : x.length + x.length ≠ 0 := by omega
    simp only [pyRatio, if_neg hne, matchTotal_self]
    rw [div_eq_one_iff_eq (by positivity)]
    ring

theorem pyRatio_nonneg (a b : List Char) : 0 ≤ pyRatio a b := by
  unfold pyRatio
  split
  · norm_num
  · positivity

theorem pyRatio_le_one (a b : List Char) : pyRatio a b ≤ 1 := by
  unfold pyRatio
  split
  · norm_num
  · rename_i hne
    have hpos : (0 : ℚ) < (a.length : ℚ) + (b.length : ℚ) := by
      have : 0 < a.length + b.length := Nat.pos_of_ne_zero hne
      exact_mod_cast this
    rw [div_le_one hpos]
    have h1 := matchTotal_le_left a b
    have h2 := matchTotal_le_right a b
    exact_mod_cast (by omega : 2 * matchTotal a b ≤ a.length + b.length)

theorem similarity_score_self (a : List Char) : similarity_score a a = 1 :=
  pyRatio_self _

theorem similarity_score_nonneg (a b : List Char) :
    0 ≤ similarity_score a b := pyRatio_nonneg _ _

theorem similarity_score_le_one (a b : List Char) :
    similarity_score a b ≤ 1 := pyRatio_le_one _ _

theorem calculate_similarity_self (a : List Char) :
    calculate_similarity a a = 1 := by
  simp [calculate_similarity, containsSub_self]

theorem pairScore_nonneg (a b : List Char) : 0 ≤ pairScore a b := by
  unfold pairScore
  split
  · norm_num
  · exact similarity_score_nonneg a b

theorem pairScore_le_one (a b : List Char) : pairScore a b ≤ 1 := by
  unfold pairScore
  split
  · norm_num
  · exact similarity_score_le_one a b

/-- C2 counterexample: the SequenceMatcher fallback ratio depends on the
argument order, so neither analyzer's similarity is symmetric.  With
a = "qprp" and b = "prqp" the greedy longest-block recursion matches 2
characters in one direction and 3 in the other, giving 0.5 against 0.75 in
both similarity functions. -/
theorem claim_C2_counterexample :
    similarity_score (lc "qprp") (lc "prqp") ≠
      similarity_score (lc "prqp") (lc "qprp") ∧
    calculate_similarity (lc "qprp") (lc "prqp") ≠
      calculate_similarity (lc "prqp") (lc "qprp") := by
  with_unfolding_all decide

/-- C2 (amended): symmetry of the similarity functions holds for identical
arguments — `similarity(a, a) = 1.0` in both analyzers — and in the ML
analyzer whenever one string is a substring of the other; for general
distinct strings the SequenceMatcher fallback is not symmetric. -/
theorem claim_C2 (a b : List Char) :
    (similarity_score a a = 1 ∧ calculate_similarity a a = 1) ∧
    ((containsSub a b || containsSub b a) = true →
      calculate_similarity a b = calculate_similarity b a) := by
  refine ⟨⟨similarity_score_self a, calculate_similarity_self a⟩, ?_⟩
  intro h
  have h' : (containsSub b a || containsSub a b) = true := by
    rwa [Bool.or_comm] at h
  simp [calculate_similarity, h, h']

/-- C2 witness: instantiation at "fev" and "fever" (a substring pair). -/
theorem claim_C2_witness :
    (similarity_score (lc "fev") (lc "fev") = 1 ∧
      calculate_similarity (lc "fev") (lc "fev") = 1) ∧
    calculate_similarity (lc "fev") (lc "fever") =
      calculate_similarity (lc "fever") (lc "fev") :=
  ⟨(claim_C2 (lc "fev") (lc "fever")).1,
   (claim_C2 (lc "fev") (lc "fever")).2 (by decide)⟩

/-- C6 counterexample: "fev" is a non-empty substring of "fever", yet the
dataset analyzer's similarity function returns the plain ratio 0.75, not
1.0 — `similarity_score` has no substring rule (it lives one level up, in
`find_matching_diseases`). -/
theorem claim_C6_counterexample :
    containsSub (lc "fev") (lc "fever") = true ∧ lc "fev" ≠ [] ∧
    lc "fever" ≠ [] ∧ similarity_score (lc "fev") (lc "fever") ≠ 1 := by
  with_unfolding_all decide

/-- C6 (amended): for non-empty strings, substring containment in either
direction forces similarity 1.0 in the ML analyzer's
`calculate_similarity` and in the per-pair scoring rule `pairScore` used by
the dataset analyzer's `find_matching_diseases`; the dataset analyzer's
bare `similarity_score` returns the plain ratio instead. -/
theorem claim_C6 (a b : List Char) (ha : a ≠ []) (hb : b ≠ [])
    (h : containsSub a b = true ∨ containsSub b a = true) :
    calculate_similarity a b = 1 ∧ pairScore a b = 1 := by
  have hor : (containsSub a b || containsSub b a) = true := by
    rcases h with h | h <;> simp [h]
  constructor
  · simp [calculate_similarity, hor]
  · simp [pairScore, hor]

/-- C6 witness: instantiation at the substring pair "fev" ⊆ "fever". -/
theorem claim_C6_witness :
    calculate_similarity (lc "fev") (lc "fever") = 1 ∧
    pairScore (lc "fev") (lc "fever") = 1 :=
  claim_C6 (lc "fev") (lc "fever") (by decide) (by decide)
    (Or.inl (by decide))

/-! ### Bounds on the disease-match scores -/

theorem bestFold_inv (us : List Char) :
    ∀ (dss : List (List Char)) (acc : ℚ × Option (List Char)),
      0 ≤ acc.1 → acc.1 ≤ 1 →
      (acc.2.isSome = true → 3 / 5 < acc.1) →
      0 ≤ (bestFold us acc dss).1 ∧ (bestFold us acc dss).1 ≤ 1 ∧
        ((bestFold us acc dss).2.isSome = true →
          3 / 5 < (bestFold us acc dss).1) := by
  intro dss
  induction dss with
  | nil => intro acc h0 h1 h2; exact ⟨h0, h1, h2⟩
  | cons ds rest ih =>
    intro acc h0 h1 h2
    simp only [bestFold]
    by_cases hc : acc.1 < pairScore us ds ∧ 3 / 5 < pairScore us ds
    · rw [if_pos hc]
      exact ih _ (le_trans h0 (le_of_lt hc.1)) (pairScore_le_one us ds)
        (fun _ => hc.2)
    · rw [if_neg hc]
      exact ih acc h0 h1 h2

theorem bestMatchFor_inv (us : List Char) (dss : List (List Char)) :
    0 ≤ (bestMatchFor us dss).1 ∧ (bestMatchFor us dss).1 ≤ 1 ∧
      ((bestMatchFor us dss).2.isSome = true →
        3 / 5 < (bestMatchFor us dss).1) :=
  bestFold_inv us dss ((0 : ℚ), none) le_rfl (by norm_num) (by simp)

theorem scanFold_inv (dss : List (List Char)) :
    ∀ (user : List (List Char)) (acc : ℚ × List (List Char)),
      0 ≤ acc.1 → acc.1 ≤ (acc.2.length : ℚ) →
      0 ≤ (scanFold dss acc user).1 ∧
      (scanFold dss acc user).1 ≤ ((scanFold dss acc user).2.length : ℚ) ∧
      (scanFold dss acc user).2.length ≤ acc.2.length + user.length := by
  intro user
  induction user with
  | nil => intro acc h0 h1; exact ⟨h0, h1, by simp [scanFold]⟩
  | cons us rest ih =>
    intro acc h0 h1
    have hbm := bestMatchFor_inv us dss
    simp only [scanFold]
    cases hb : bestMatchFor us dss with
    | mk s o =>
      rw [hb] at hbm
      cases o with
      | none =>
        dsimp only
        obtain ⟨a, b, c⟩ := ih acc h0 h1
        refine ⟨a, b, ?_⟩
        simp only [List.length_cons]
        omega
      | some m =>
        dsimp only
        by_cases hm : m = []
        · rw [if_pos hm]
          obtain ⟨a, b, c⟩ := ih acc h0 h1
          refine ⟨a, b, ?_⟩
          simp only [List.length_cons]
          omega
        · rw [if_neg hm]
          have hs1 : s ≤ 1 := hbm.2.1
          have hs0 : 0 ≤ s := hbm.1
          have hacc : acc.1 + s ≤ (((acc.2 ++ [m]).length : ℕ) : ℚ) := by
            have : ((acc.2 ++ [m]).length : ℕ) = acc.2.length + 1 := by simp
            rw [this]
            push_cast
            linarith
          obtain ⟨a, b, c⟩ :=
            ih (acc.1 + s, acc.2 ++ [m]) (by dsimp only; linarith) hacc
          refine ⟨a, b, ?_⟩
          simp only [List.length_append, List.length_singleton] at c
          simp only [List.length_cons]
          omega

theorem bestFold_nil_dss (us : List Char) :
    bestMatchFor us [] = ((0 : ℚ), none) := rfl

theorem scanFold_nil_dss :
    ∀ (user : List (List Char)) (acc : ℚ × List (List Char)),
      scanFold [] acc user = acc := by
  intro user
  induction user with
  | nil => intro acc; rfl
  | cons us rest ih =>
    intro acc
    simp only [scanFold, bestFold_nil_dss]
    exact ih acc

theorem diseaseRow_bounds (user : List (List Char)) (disease : List Char)
    (dss : List (List Char)) (m : DiseaseMatch)
    (h : diseaseRow user disease dss = some m) (huser : user ≠ []) :
    0 ≤ m.match_percentage ∧ m.match_percentage ≤ 100 ∧
    0 ≤ m.symptom_coverage ∧
    m.symptom_coverage ≤
      100 * (user.length : ℚ) / (m.all_symptoms.length : ℚ) ∧
    m.combined_score = (m.match_percentage + m.symptom_coverage) / 2 := by
  unfold diseaseRow at h
  by_cases h0 : 0 < (diseaseScan user (dss.map fun s => pyStrip (lowerStr s))).1
  · rw [if_pos h0] at h
    obtain rfl := (Option.some_injective _ h).symm
    have hdss : dss ≠ [] := by
      intro hnil
      rw [hnil] at h0
      simp only [List.map_nil, diseaseScan, scanFold_nil_dss] at h0
      exact lt_irrefl 0 h0
    have inv := scanFold_inv (dss.map fun s => pyStrip (lowerStr s)) user
      ((0 : ℚ), []) le_rfl (by simp)
    have hr0 : 0 ≤ (diseaseScan user (dss.map fun s => pyStrip (lowerStr s))).1 :=
      inv.1
    have hr1 : (diseaseScan user (dss.map fun s => pyStrip (lowerStr s))).1 ≤
        ((diseaseScan user (dss.map fun s => pyStrip (lowerStr s))).2.length : ℚ) :=
      inv.2.1
    have hr2 : (diseaseScan user (dss.map fun s => pyStrip (lowerStr s))).2.length ≤
        user.length := by
      have := inv.2.2
      simpa using this
    have hnq : (0 : ℚ) < (user.length : ℚ) := by
      exact_mod_cast List.length_pos.mpr huser
    have hdq : (0 : ℚ) < (dss.length : ℚ) := by
      exact_mod_cast List.length_pos.mpr hdss
    have hlen : ((diseaseScan user (dss.map fun s => pyStrip (lowerStr s))).2.length : ℚ) ≤
        (user.length : ℚ) := by exact_mod_cast hr2
    refine ⟨?_, ?_, ?_, ?_, rfl⟩
    · exact mul_nonneg (div_nonneg hr0 (le_of_lt hnq)) (by norm_num)
    · have hle : (diseaseScan user (dss.map fun s => pyStrip (lowerStr s))).1 /
          (user.length : ℚ) ≤ 1 :=
        (div_le_one hnq).mpr (le_trans hr1 hlen)
      calc (diseaseScan user (dss.map fun s => pyStrip (lowerStr s))).1 /
            (user.length : ℚ) * 100 ≤ 1 * 100 :=
              mul_le_mul_of_nonneg_right hle (by norm_num)
        _ = 100 := by norm_num
    · exact mul_nonneg (div_nonneg (by positivity) (le_of_lt hdq)) (by norm_num)
    · have hdiv : ((diseaseScan user (dss.map fun s => pyStrip (lowerStr s))).2.length : ℚ) /
          (dss.length : ℚ) ≤ (user.length : ℚ) / (dss.length : ℚ) :=
        (div_le_div_iff_of_pos_right hdq).mpr hlen
      calc ((diseaseScan user (dss.map fun s => pyStrip (lowerStr s))).2.length : ℚ) /
            (dss.length : ℚ) * 100 ≤
            (user.length : ℚ) / (dss.length : ℚ) * 100 :=
              mul_le_mul_of_nonneg_right hdiv (by norm_num)
        _ = 100 * (user.length : ℚ) / (dss.length : ℚ) := by ring
  · rw [if_neg h0] at h
    exact absurd h (by simp)

set_option maxRecDepth 4000 in
/-- C1 counterexample: the matched symptoms are counted WITH multiplicity
(symptom_analysis.py:93 appends, line 98 divides by the disease's symptom
count without deduplication), so two user phrases matching the same disease
symptom push `symptom_coverage` past 100.  For user symptoms
["fev", "feve"] against the disease D with symptom list ["fever"], both
phrases substring-match "fever": coverage is 200 and combined_score 150. -/
theorem claim_C1_counterexample :
    ([lc "fev", lc "feve"] : List (List Char)) ≠ [] ∧
    ¬ (∀ m ∈ find_matching_diseases [(lc "D", [lc "fever"])]
        [lc "fev", lc "feve"], m.symptom_coverage ≤ 100) := by
  with_unfolding_all decide

/-- C1 (amended): for a non-empty user symptom list, every disease match
has `match_percentage` in [0, 100], `symptom_coverage` nonnegative and at
most `100 · |user symptoms| / |disease symptoms|` (it can exceed 100, since
matched symptoms are counted with multiplicity), and `combined_score` is
exactly the arithmetic mean of the two. -/
theorem claim_C1 (dataset : List (List Char × List (List Char)))
    (user : List (List Char)) (huser : user ≠ []) :
    ∀ m ∈ find_matching_diseases dataset user,
      0 ≤ m.match_percentage ∧ m.match_percentage ≤ 100 ∧
      0 ≤ m.symptom_coverage ∧
      m.symptom_coverage ≤
        100 * (user.length : ℚ) / (m.all_symptoms.length : ℚ) ∧
      m.combined_score = (m.match_percentage + m.symptom_coverage) / 2 := by
  intro m hm
  rw [find_matching_diseases, mem_sortDesc] at hm
  obtain ⟨⟨d, dss⟩, _, hrow⟩ := List.mem_filterMap.mp hm
  exact diseaseRow_bounds user d dss m hrow huser

set_option maxRecDepth 8000 in
/-- C1 witness: the dataset `{Flu: [fever, cough, fatigue]}` against the
single user symptom "fever": match_percentage 100, symptom_coverage 100/3,
combined_score 200/3, satisfying every bound. -/
theorem claim_C1_witness :
    (0 : ℚ) ≤ 100 ∧ (100 : ℚ) ≤ 100 ∧ (0 : ℚ) ≤ 100 / 3 ∧
    (100 / 3 : ℚ) ≤
      100 * ((([lc "fever"] : List (List Char)).length : ℚ)) /
        ((([lc "fever", lc "cough", lc "fatigue"] :
          List (List Char)).length : ℚ)) ∧
    (200 / 3 : ℚ) = (100 + 100 / 3) / 2 := by
  have hmem : (⟨lc "Flu", [lc "fever", lc "cough", lc "fatigue"],
      [lc "fever"], 1, 100, 100 / 3, 200 / 3⟩ : DiseaseMatch) ∈
      find_matching_diseases
        [(lc "Flu", [lc "fever", lc "cough", lc "fatigue"])] [lc "fever"] := by
    with_unfolding_all decide
  exact claim_C1 [(lc "Flu", [lc "fever", lc "cough", lc "fatigue"])]
    [lc "fever"] (by decide) _ hmem

/-! ### Shape of normalized phrases -/

theorem dropWhile_head_false :
    ∀ (l : List Char) (c : Char) (X : List Char),
      l.dropWhile isPySpace = c :: X → isPySpace c = false := by
  intro l
  induction l with
  | nil => intro c X h; simp at h
  | cons a as ih =>
    intro c X h
    by_cases ha : isPySpace a
    · rw [List.dropWhile_cons_of_pos ha] at h
      exact ih c X h
    · rw [List.dropWhile_cons_of_neg ha] at h
      obtain ⟨rfl, -⟩ := List.cons.injEq .. ▸ h
      · exact eq_false_of_ne_true (by simpa using ha)

theorem dropWhile_shape (p : Char → Bool) :
    ∀ l : List Char, l.dropWhile p = [] ∨
      ∃ n, n < l.length ∧ l.dropWhile p = l.drop n := by
  intro l
  induction l with
  | nil => left; rfl
  | cons a as ih =>
    by_cases ha : p a
    · rw [List.dropWhile_cons_of_pos ha]
      rcases ih with h | ⟨n, hn, heq⟩
      · left; exact h
      · right
        exact ⟨n + 1, by simp; omega, by simpa using heq⟩
    · right
      rw [List.dropWhile_cons_of_neg ha]
      exact ⟨0, by simp, rfl⟩

theorem rstrip_head (c : Char) (X : List Char) (hc : isPySpace c = false) :
    ∃ Y, ((c :: X).reverse.dropWhile isPySpace).reverse = c :: Y := by
  rw [List.reverse_cons]
  rcases dropWhile_shape isPySpace (X.reverse ++ [c]) with h | ⟨n, hn, heq⟩
  · exfalso
    have := (List.dropWhile_eq_nil_iff).mp h c (by simp)
    rw [hc] at this
    exact Bool.false_ne_true this
  · have hnle : n ≤ X.reverse.length := by
      simp only [List.length_append, List.length_reverse,
        List.length_singleton] at hn
      simp only [List.length_reverse]
      omega
    rw [heq, List.drop_append_of_le_length hnle, List.reverse_append]
    exact ⟨(X.reverse.drop n).reverse, rfl⟩

theorem pyStrip_shape (s : List Char) :
    pyStrip s = [] ∨ ∃ c X, pyStrip s = c :: X ∧ isPySpace c = false := by
  unfold pyStrip
  cases hd : s.dropWhile isPySpace with
  | nil => left; simp
  | cons c X =>
    right
    have hc := dropWhile_head_false s c X hd
    obtain ⟨Y, hY⟩ := rstrip_head c X hc
    exact ⟨c, Y, hY, hc⟩

theorem pyStrip_cons_ne_nil (c : Char) (X : List Char)
    (hc : isPySpace c = false) : pyStrip (c :: X) ≠ [] := by
  intro h
  unfold pyStrip at h
  rw [List.dropWhile_cons_of_neg (by simp [hc]), List.reverse_eq_nil_iff] at h
  have := (List.dropWhile_eq_nil_iff).mp h c (by simp)
  rw [hc] at this
  exact Bool.false_ne_true this

theorem matchToks_ws_end :
    ∀ (ts : List PatTok) (s r : List Char),
      ts.getLast? = some PatTok.ws → matchToks ts s = some r →
      r = [] ∨ ∃ c X, r = c :: X ∧ isPySpace c = false := by
  intro ts
  induction ts with
  | nil => intro s r hlast; simp at hlast
  | cons t ts' ih =>
    intro s r hlast hm
    cases ts' with
    | nil =>
      cases t with
      | lit w => simp at hlast
      | ws =>
        simp only [matchToks] at hm
        by_cases he : (s.takeWhile isPySpace).isEmpty
        · rw [if_pos he] at hm; exact absurd hm (by simp)
        · rw [if_neg he] at hm
          obtain rfl := (Option.some_injective _ hm).symm
          cases hd : s.dropWhile isPySpace with
          | nil => left; rw [← hd]
          | cons c X =>
            right
            exact ⟨c, X, by rw [← hd], dropWhile_head_false s c X hd⟩
    | cons t2 ts'' =>
      have hlast' : (t2 :: ts'').getLast? = some PatTok.ws := by
        rwa [List.getLast?_cons_cons] at hlast
      cases t with
      | lit w =>
        simp only [matchToks] at hm
        by_cases hw : leadsList w s
        · rw [if_pos hw] at hm
          exact ih _ r hlast' hm
        · rw [if_neg hw] at hm; exact absurd hm (by simp)
      | ws =>
        simp only [matchToks] at hm
        by_cases he : (s.takeWhile isPySpace).isEmpty
        · rw [if_pos he] at hm; exact absurd hm (by simp)
        · rw [if_neg he] at hm
          exact ih _ r hlast' hm

theorem dropLeadFiller_shape (pats : List (List PatTok)) (s : List Char)
    (hpats : ∀ p ∈ pats, p.getLast? = some PatTok.ws) :
    dropLeadFiller pats s = s ∨ dropLeadFiller pats s = [] ∨
      ∃ c X, dropLeadFiller pats s = c :: X ∧ isPySpace c = false := by
  unfold dropLeadFiller
  cases hf : pats.findSome? (fun p => matchToks p s) with
  | none => left; rfl
  | some rest =>
    right
    obtain ⟨p, hp, hmp⟩ := List.exists_of_findSome?_eq_some hf
    rcases matchToks_ws_end p s rest (hpats p hp) hmp with h | ⟨c, X, hcx, hc⟩
    · left; exact h
    · right; exact ⟨c, X, hcx, hc⟩

theorem cutScan_append (mlWs : Bool) :
    ∀ (fuel : ℕ) (s acc : List Char),
      ∃ X, cutScan mlWs fuel s acc = acc.reverse ++ X := by
  intro fuel
  induction fuel with
  | zero => intro s acc; exact ⟨s, rfl⟩
  | succ f ih =>
    intro s acc
    simp only [cutScan]
    cases hc : cutHere mlWs s with
    | some leftover => exact ⟨leftover, rfl⟩
    | none =>
      cases s with
      | nil => exact ⟨[], by simp⟩
      | cons c rest =>
        obtain ⟨X, hX⟩ := ih rest (c :: acc)
        refine ⟨c :: X, ?_⟩
        dsimp only
        rw [hX, List.reverse_cons, List.append_assoc]
        rfl

theorem cutHere_nonws (mlWs : Bool) (c : Char) (rest : List Char)
    (hc : isPySpace c = false) : cutHere mlWs (c :: rest) = none := by
  simp [cutHere, matchToks, List.takeWhile_cons, hc]

theorem dropTrailClause_head (mlWs : Bool) (c : Char) (rest : List Char)
    (hc : isPySpace c = false) :
    ∃ X, dropTrailClause mlWs (c :: rest) = c :: X := by
  unfold dropTrailClause
  simp only [List.length_cons, cutScan, cutHere_nonws mlWs c rest hc]
  obtain ⟨X, hX⟩ := cutScan_append mlWs rest.length rest [c]
  exact ⟨X, by rw [hX]; rfl⟩

theorem dropTrailClause_nil (mlWs : Bool) : dropTrailClause mlWs [] = [] := rfl

/-- C7 counterexample: the dataset analyzer length-checks the raw fragment
BEFORE removing the leading filler, so "the ab" (6 characters) passes the
check and is then stripped to "ab", a phrase of length 2 in the output. -/
theorem claim_C7_counterexample :
    extract_symptoms_from_text (lc "the ab") = [lc "ab"] ∧
    (lc "ab").length < 3 := by
  with_unfolding_all decide

/-- C7 (amended): in both analyzers the normalizer output has no duplicate
phrases; in the ML analyzer every phrase has at least 3 characters (its
length check runs after the filler stripping), while in the dataset
analyzer every phrase is non-empty but can be shorter than 3 characters,
because the length check runs before the filler stripping. -/
theorem claim_C7 :
    (∀ t : List Char, (preprocess_symptoms t).Nodup ∧
      ∀ p ∈ preprocess_symptoms t, 3 ≤ p.length) ∧
    (∀ t : List Char, (extract_symptoms_from_text t).Nodup ∧
      ∀ p ∈ extract_symptoms_from_text t, p ≠ []) := by
  constructor
  · intro t
    refine ⟨pyDedup_nodup _, ?_⟩
    intro p hp
    have hp' := pyDedup_subset _ p hp
    obtain ⟨symptom, -, heq⟩ := List.mem_filterMap.mp hp'
    dsimp only at heq
    split_ifs at heq with hcond
    · obtain rfl := (Option.some_injective _ heq).symm
      omega
  · intro t
    refine ⟨pyDedup_nodup _, ?_⟩
    intro p hp
    have hp' := pyDedup_subset _ p hp
    obtain ⟨part, -, heq⟩ := List.mem_filterMap.mp hp'
    dsimp only at heq
    split_ifs at heq with h1 h2
    · obtain rfl := (Option.some_injective _ heq).symm
      rcases pyStrip_shape part with hnil | ⟨c, X, hcx, hc⟩
      · rw [hnil] at h1; simp at h1
      · rw [hcx] at h2 ⊢
        rcases dropLeadFiller_shape saLeadPats (c :: X)
            (by decide) with hsame | hnil | ⟨c', X', hcx', hc'⟩
        · rw [hsame] at h2 ⊢
          obtain ⟨Y, hY⟩ := dropTrailClause_head false c X hc
          rw [hY]
          exact pyStrip_cons_ne_nil c Y hc
        · rw [hnil, dropTrailClause_nil] at h2
          exact absurd rfl h2
        · rw [hcx'] at h2 ⊢
          obtain ⟨Y, hY⟩ := dropTrailClause_head false c' X' hc'
          rw [hY]
          exact pyStrip_cons_ne_nil c' Y hc'

/-- C7 witness: concrete instantiations of both parts. -/
theorem claim_C7_witness :
    (preprocess_symptoms (lc "fever and chills")).Nodup ∧
    3 ≤ (lc "fever").length ∧
    (extract_symptoms_from_text (lc "fever")).Nodup ∧ lc "fever" ≠ [] := by
  refine ⟨(claim_C7.1 (lc "fever and chills")).1, ?_,
    (claim_C7.2 (lc "fever")).1, ?_⟩
  · exact (claim_C7.1 (lc "fever and chills")).2 (lc "fever")
      (by with_unfolding_all decide)
  · exact (claim_C7.2 (lc "fever")).2 (lc "fever")
      (by with_unfolding_all decide)

/-! ### Behaviour on empty input -/

theorem diseaseRow_nil_user (disease : List Char)
    (dss : List (List Char)) : diseaseRow [] disease dss = none := by
  unfold diseaseRow diseaseScan scanFold
  rw [if_neg (lt_irrefl 0)]

theorem matchRows_nil_user (dataset : List (List Char × List (List Char))) :
    matchRows dataset [] = [] := by
  unfold matchRows
  induction dataset with
  | nil => rfl
  | cons d ds ih =>
    rw [List.filterMap_cons, diseaseRow_nil_user]
    exact ih

theorem find_matching_diseases_nil_user
    (dataset : List (List Char × List (List Char))) :
    find_matching_diseases dataset [] = [] := by
  rw [find_matching_diseases, matchRows_nil_user]
  rfl

set_option maxRecDepth 2000 in
/-- C3 counterexample: the dataset analyzer does not short-circuit on the
empty input.  `analyze_symptoms` always returns an ordinary fully populated
analysis — its result shape has no error field at all — so on `""` it
produces the generic fallback causes, low-urgency recommendations and
questions, rather than a result carrying an `error` field. -/
theorem claim_C3_counterexample :
    (analyze_symptoms [(lc "Flu", [lc "fever", lc "cough", lc "fatigue"])]
      (lc "") (lc "") (lc "") (lc "") (lc "")).possible_causes =
      genericCauses_sa ∧
    (analyze_symptoms [(lc "Flu", [lc "fever", lc "cough", lc "fatigue"])]
      (lc "") (lc "") (lc "") (lc "") (lc "")).recommendations ≠ [] ∧
    (analyze_symptoms [(lc "Flu", [lc "fever", lc "cough", lc "fatigue"])]
      (lc "") (lc "") (lc "") (lc "") (lc "")).urgency_level = lc "Low" := by
  with_unfolding_all decide

/-- C3 (amended): on the empty input string, for any age, gender, duration
and medical history: the ML analyzer short-circuits to its success-shaped
error payload (error text plus usage example), with no disease matches and
no urgency assessment; the dataset analyzer instead returns an ordinary
analysis whose match list is empty, whose causes are the generic fallback
list, and whose urgency is the default Low — its result shape carries no
error field.  Neither analyzer raises. -/
theorem claim_C3 (st : MLState)
    (dataset : List (List Char × List (List Char)))
    (age gender duration medical_history : List Char) :
    comprehensive_analysis st (lc "") age gender duration medical_history =
      Except.error
        ⟨lc "No valid symptoms found. Please describe your symptoms clearly.",
         lc "Try: \x27fever, headache, cough\x27 or \x27stomach pain and nausea\x27"⟩ ∧
    (analyze_symptoms dataset (lc "") age gender duration
        medical_history).extracted_symptoms = [] ∧
    (analyze_symptoms dataset (lc "") age gender duration
        medical_history).top_disease_matches = [] ∧
    (analyze_symptoms dataset (lc "") age gender duration
        medical_history).possible_causes = genericCauses_sa ∧
    (analyze_symptoms dataset (lc "") age gender duration
        medical_history).urgency_level = (lc "Low") := by
  have hfm : find_matching_diseases dataset
      (extract_symptoms_from_text (lc "")) = [] := by
    have hex : extract_symptoms_from_text (lc "") = [] := rfl
    rw [hex, find_matching_diseases_nil_user]
  refine ⟨by with_unfolding_all rfl, ?_, ?_, ?_, ?_⟩ <;>
    · simp only [analyze_symptoms, hfm]
      with_unfolding_all rfl

end SymCheck
